/-
Verification of the type-modeling core of drgn (`libdrgn/type.h`).

The repository provides the header `src/libdrgn/type.h`.  Functions whose
bodies appear inline in that header (`drgn_lazy_type_init_thunk`,
`drgn_lazy_type_init_evaluated`, `drgn_lazy_type_is_evaluated`,
`drgn_underlying_type`, ...) are embedded directly from the source.  The
data structures (`struct drgn_type`, `struct drgn_qualified_type`, ...)
and the functions that are only declared in the header (their bodies live
in `type.c`, which is not part of the provided sources) are modelled from
the specification; each such definition carries a doc comment starting
with `Modelled from the spec:`.

Machine integers (`uint64_t`) are modelled as `Nat` with explicit bounds
(`UINT64_MAX`); the qualifier bit set (`enum drgn_qualifiers`) is modelled
as `Int` so that the sentinel value `-1` used by lazy types is
representable exactly as in the C source.
-/
import Mathlib

set_option autoImplicit false

namespace Drgn

/-- Modelled from the spec (§7 error taxonomy): `struct drgn_error`.
`not_found` models the distinguished `&drgn_not_found` error object that
finder chains treat as recoverable; `invalid_argument` models
`DRGN_ERROR_INVALID_ARGUMENT`; `overflow` models `DRGN_ERROR_OVERFLOW`;
`other` models any other (opaque) error.  The `recursion_limit` error is a
modelling device: it is returned when the fuel of a fueled recursion runs
out, standing for the unbounded recursion the C code would perform on
malformed cyclic input. -/
inductive drgn_error where
  | not_found : drgn_error
  | invalid_argument : String → drgn_error
  | overflow : drgn_error
  | recursion_limit : drgn_error
  | other : String → drgn_error
deriving DecidableEq, Repr

/-- The enumeration `drgn_type_kind` from the drgn API (referenced throughout
`type.h`); the constructor names follow the C enumerators. -/
inductive drgn_type_kind where
  | DRGN_TYPE_VOID
  | DRGN_TYPE_INT
  | DRGN_TYPE_BOOL
  | DRGN_TYPE_FLOAT
  | DRGN_TYPE_COMPLEX
  | DRGN_TYPE_STRUCT
  | DRGN_TYPE_UNION
  | DRGN_TYPE_CLASS
  | DRGN_TYPE_ENUM
  | DRGN_TYPE_TYPEDEF
  | DRGN_TYPE_POINTER
  | DRGN_TYPE_ARRAY
  | DRGN_TYPE_FUNCTION
deriving DecidableEq, Repr

/-- The kinds admissible for a compound type: `drgn_compound_type_builder`
is initialized with "One of `DRGN_TYPE_STRUCT`, `DRGN_TYPE_UNION`, or
`DRGN_TYPE_CLASS`" (type.h lines 318-319). -/
inductive drgn_compound_kind where
  | DRGN_TYPE_STRUCT
  | DRGN_TYPE_UNION
  | DRGN_TYPE_CLASS
deriving DecidableEq, Repr

/-- The `drgn_type_kind` enumerant of a compound kind. -/
def drgn_compound_kind.to_kind : drgn_compound_kind → drgn_type_kind
  | .DRGN_TYPE_STRUCT => .DRGN_TYPE_STRUCT
  | .DRGN_TYPE_UNION => .DRGN_TYPE_UNION
  | .DRGN_TYPE_CLASS => .DRGN_TYPE_CLASS

/-- Modelled from the spec (§3): the value of a `drgn_type_enumerator`,
stored as signed or unsigned 64-bit depending on which builder method
added it. -/
inductive drgn_enumerator_value where
  | svalue : Int → drgn_enumerator_value
  | uvalue : Nat → drgn_enumerator_value
deriving DecidableEq, Repr

set_option genSizeOfSpec false in
mutual

/-- Modelled from the spec (§3 data model, §9 design note "Tagged-union
type kinds"): `struct drgn_type` as a discriminated union over its kind.
Name/tag is `Option String` where the C field is nullable; qualified-type
references are stored flattened as a nullable type plus a qualifier bit
set (`Int`), matching the C pair of a `struct drgn_type *` and an
`enum drgn_qualifiers`.  Members and parameters hold lazy types, which is
how the C representation breaks cycles in the type graph. -/
inductive drgn_type where
  | void (lang : Nat)
  | int (name : String) (size : Nat) (is_signed : Bool)
  | bool (name : String) (size : Nat)
  | float (name : String) (size : Nat)
  | complex (name : String) (size : Nat) (real_type : drgn_type)
  | compound (kind : drgn_compound_kind) (tag : Option String) (size : Nat)
      (is_complete : Bool) (members : List drgn_type_member)
      (templates : List drgn_template_parameter)
  | enum (tag : Option String) (compatible_type : Option drgn_type)
      (enumerators : List drgn_type_enumerator) (is_complete : Bool)
  | typedef (name : String) (aliased_type : Option drgn_type)
      (aliased_qualifiers : Int)
  | pointer (size : Nat) (referenced_type : Option drgn_type)
      (referenced_qualifiers : Int)
  | array (length : Nat) (is_complete : Bool) (element_type : Option drgn_type)
      (element_qualifiers : Int)
  | function (parameters : List drgn_type_parameter)
      (return_type : Option drgn_type) (return_qualifiers : Int)
      (is_variadic : Bool) (templates : List drgn_template_parameter)

/-- Modelled from the spec (§3): `struct drgn_type_member`
(name, lazy type, bit offset, bit field size). -/
inductive drgn_type_member where
  | mk (type : drgn_lazy_type) (name : Option String) (bit_offset : Nat)
      (bit_field_size : Nat)

/-- Modelled from the spec (§3): `struct drgn_type_parameter`
(name, lazy type). -/
inductive drgn_type_parameter where
  | mk (type : drgn_lazy_type) (name : Option String)

/-- Modelled from the spec (§3): `struct drgn_template_parameter`
(name, lazy type). -/
inductive drgn_template_parameter where
  | mk (type : drgn_lazy_type) (name : Option String)

/-- Modelled from the spec (§3): `struct drgn_type_enumerator`
(name, 64-bit value). -/
inductive drgn_type_enumerator where
  | mk (name : String) (value : drgn_enumerator_value)

/-- Modelled from the spec (§3): `struct drgn_qualified_type`, a pair of
a (nullable) type pointer and qualifier bits. -/
inductive drgn_qualified_type where
  | mk (type : Option drgn_type) (qualifiers : Int)

/-- Modelled from the spec (§3, §6): `struct drgn_type_thunk`
(type.h lines 102-120).  The C thunk is a pair of callbacks
`evaluate_fn`/`free_fn` plus closure data; it is modelled as the function
giving the (deterministic) outcome of one invocation of `evaluate_fn`. -/
inductive drgn_type_thunk where
  | mk (evaluate_fn : Unit → Except drgn_error drgn_qualified_type)

/-- The struct `drgn_lazy_type`: the C struct is an untagged union of a type
pointer and a thunk pointer, discriminated by the `qualifiers` field
(sentinel `-1` means the thunk member is the live one).  The union is
modelled by `drgn_lazy_payload`, kept alongside the `qualifiers` field
exactly as in C. -/
inductive drgn_lazy_type where
  | mk (payload : drgn_lazy_payload) (qualifiers : Int)

/-- The two alternatives of the union inside `struct drgn_lazy_type`. -/
inductive drgn_lazy_payload where
  | type (t : Option drgn_type)
  | thunk (th : drgn_type_thunk)

end

/-- Payload (union) component of a `drgn_lazy_type`. -/
def drgn_lazy_type.payload : drgn_lazy_type → drgn_lazy_payload
  | .mk p _ => p

/-- Qualifiers component of a `drgn_lazy_type`. -/
def drgn_lazy_type.qualifiers : drgn_lazy_type → Int
  | .mk _ q => q

/-- Type component of a `drgn_qualified_type`. -/
def drgn_qualified_type.type : drgn_qualified_type → Option drgn_type
  | .mk t _ => t

/-- Qualifiers component of a `drgn_qualified_type`. -/
def drgn_qualified_type.qualifiers : drgn_qualified_type → Int
  | .mk _ q => q

/-- Evaluation callback of a thunk. -/
def drgn_type_thunk.evaluate_fn :
    drgn_type_thunk → Unit → Except drgn_error drgn_qualified_type
  | .mk f => f

/-- Reading the `type` member of the union inside `struct drgn_lazy_type`.
When the live member is actually the thunk, the C read would be undefined;
that case is unreachable for well-formed cells
(see `drgn_lazy_type_wf`). -/
def drgn_lazy_payload.type_member : drgn_lazy_payload → Option drgn_type
  | .type t => t
  | .thunk _ => none

/-- Accessor `drgn_type_kind()`: the kind tag of a type
(used by `drgn_underlying_type`, type.h line 611). -/
def drgn_type.kind : drgn_type → drgn_type_kind
  | .void _ => .DRGN_TYPE_VOID
  | .int _ _ _ => .DRGN_TYPE_INT
  | .bool _ _ => .DRGN_TYPE_BOOL
  | .float _ _ => .DRGN_TYPE_FLOAT
  | .complex _ _ _ => .DRGN_TYPE_COMPLEX
  | .compound k _ _ _ _ _ => k.to_kind
  | .enum _ _ _ _ => .DRGN_TYPE_ENUM
  | .typedef _ _ _ => .DRGN_TYPE_TYPEDEF
  | .pointer _ _ _ => .DRGN_TYPE_POINTER
  | .array _ _ _ _ => .DRGN_TYPE_ARRAY
  | .function _ _ _ _ _ => .DRGN_TYPE_FUNCTION

/-!
Lazy types (type.h lines 138-198)

`drgn_lazy_type_init_thunk`, `drgn_lazy_type_init_evaluated` and
`drgn_lazy_type_is_evaluated` are embedded from their inline bodies in
the header.  The two `assert`s of `drgn_lazy_type_init_evaluated`
(type.h lines 158-160) become hypotheses of the theorems below.
-/

/-- Embedded from `drgn_lazy_type_init_thunk` (type.h lines 138-143): store the thunk
and the sentinel qualifier value `-1`. -/
def drgn_lazy_type_init_thunk (thunk : drgn_type_thunk) : drgn_lazy_type :=
  .mk (.thunk thunk) (-1)

/-- Embedded from `drgn_lazy_type_init_evaluated` (type.h lines 153-163): store the
(nullable) type and its qualifiers.  The C asserts
`!type -> !qualifiers` and `qualifiers != -1`. -/
def drgn_lazy_type_init_evaluated (type : Option drgn_type)
    (qualifiers : Int) : drgn_lazy_type :=
  .mk (.type type) qualifiers

/-- Embedded from `drgn_lazy_type_is_evaluated` (type.h lines 171-174):
`lazy_type->qualifiers != (enum drgn_qualifiers)-1`. -/
def drgn_lazy_type_is_evaluated (lazy_type : drgn_lazy_type) : Bool :=
  lazy_type.qualifiers != -1

/-- Well-formedness of a lazy-type cell: the live union member agrees
with the sentinel discriminant.  Every cell produced by the two
initializers (under their asserts) satisfies this. -/
def drgn_lazy_type_wf (lazy_type : drgn_lazy_type) : Bool :=
  match lazy_type.payload with
  | .thunk _ => lazy_type.qualifiers == -1
  | .type _ => lazy_type.qualifiers != -1

/-- Modelled from the spec: `drgn_lazy_type_evaluate` (declared at type.h
lines 187-188, body in `type.c` which is not among the sources; behavior
from the header doc at lines 176-186 and spec §4.2).  If the cell is
evaluated, return the cached qualified type; otherwise invoke the thunk:
on success store the result via `drgn_lazy_type_init_evaluated` and
release the thunk, on failure return the error and leave the cell
untouched.  The result is the triple (outcome, cell state after the
call, thunk invoked during the call, if any); the third component makes
"the thunk is (not) invoked" provable. -/
def drgn_lazy_type_evaluate (lazy_type : drgn_lazy_type) :
    Except drgn_error drgn_qualified_type × drgn_lazy_type ×
      Option drgn_type_thunk :=
  if drgn_lazy_type_is_evaluated lazy_type then
    (.ok (.mk lazy_type.payload.type_member lazy_type.qualifiers),
     lazy_type, none)
  else
    match lazy_type.payload with
    | .thunk thunk =>
      match thunk.evaluate_fn () with
      | .ok qt =>
        (.ok qt, drgn_lazy_type_init_evaluated qt.type qt.qualifiers,
         some thunk)
      | .error err => (.error err, lazy_type, some thunk)
    | .type t => (.ok (.mk t lazy_type.qualifiers), lazy_type, none)

/-!
Underlying type (type.h lines 606-614)

`drgn_underlying_type` is embedded from its inline body in the header:
starting from the given type, while the current type's kind is
`DRGN_TYPE_TYPEDEF`, replace it by `drgn_type_type(...).type` (the
aliased type).  The C loop dereferences the aliased-type pointer; a
typedef with a null aliased type would crash, so the function below
leaves such a (never constructed) type unchanged and the theorems
hypothesize that the chain is fully linked.
-/

/-- Embedded from `drgn_underlying_type` (type.h lines 606-614). -/
def drgn_underlying_type : drgn_type → drgn_type
  | .typedef _ (some aliased) _ => drgn_underlying_type aliased
  | t => t

/-- One iteration of the loop in `drgn_underlying_type`: unwrap a single
typedef. -/
def drgn_unwrap_typedef_step : drgn_type → drgn_type
  | .typedef _ (some aliased) _ => aliased
  | t => t

/-- The n-fold iteration of `drgn_unwrap_typedef_step`. -/
def drgn_unwrap_typedef_iter : Nat → drgn_type → drgn_type
  | 0, t => t
  | n + 1, t => drgn_unwrap_typedef_iter n (drgn_unwrap_typedef_step t)

/-- Depth of the typedef chain starting at a type: the number of loop
iterations `drgn_underlying_type` performs. -/
def drgn_typedef_depth : drgn_type → Nat
  | .typedef _ (some aliased) _ => drgn_typedef_depth aliased + 1
  | _ => 0

/-- Whether every typedef on the chain starting at a type carries a
non-null aliased type (always true for types built by
`drgn_typedef_type_create`, whose argument is a real qualified type). -/
def drgn_typedef_chain_linked : drgn_type → Bool
  | .typedef _ (some aliased) _ => drgn_typedef_chain_linked aliased
  | .typedef _ none _ => false
  | _ => true

/-!
Type size and bit size (type.h lines 673-679)

`drgn_type_bit_size` is declared in the header with the contract "the
same as multiplying the result of `drgn_type_sizeof()` by 8 except that
it handles overflow"; its body (and `drgn_type_sizeof`) live in `type.c`,
which is not among the sources, so both are modelled from the spec.
-/

/-- The constant `UINT64_MAX`. -/
def UINT64_MAX : Nat := 2 ^ 64 - 1

/-- Modelled from the spec: `drgn_type_sizeof` (body in `type.c`, not
among the sources; behavior from spec §3: size in bytes is only
meaningful when the type is complete).  Incomplete types, void and
function types have no size; enum and typedef types take the size of the
compatible/aliased type; array types multiply the element size by the
length (with the same overflow discipline as `drgn_type_bit_size`). -/
def drgn_type_sizeof : drgn_type → Except drgn_error Nat
  | .void _ => .error (.invalid_argument "cannot get size of void type")
  | .int _ size _ => .ok size
  | .bool _ size => .ok size
  | .float _ size => .ok size
  | .complex _ size _ => .ok size
  | .compound _ _ size is_complete _ _ =>
    if is_complete then .ok size
    else .error (.invalid_argument "cannot get size of incomplete type")
  | .enum _ compatible_type _ is_complete =>
    if is_complete then
      match compatible_type with
      | some compatible => drgn_type_sizeof compatible
      | none => .error (.invalid_argument "cannot get size of incomplete type")
    else .error (.invalid_argument "cannot get size of incomplete type")
  | .typedef _ aliased_type _ =>
    match aliased_type with
    | some aliased => drgn_type_sizeof aliased
    | none => .error (.invalid_argument "typedef has no aliased type")
  | .pointer size _ _ => .ok size
  | .array length is_complete element_type _ =>
    if is_complete then
      match element_type with
      | some element =>
        match drgn_type_sizeof element with
        | .error err => .error err
        | .ok element_size =>
          if length != 0 && element_size > UINT64_MAX / length then
            .error .overflow
          else
            .ok (length * element_size)
      | none => .error (.invalid_argument "array has no element type")
    else .error (.invalid_argument "cannot get size of incomplete type")
  | .function _ _ _ _ _ =>
    .error (.invalid_argument "cannot get size of function type")

/-- Modelled from the spec: `drgn_type_bit_size` (declared at type.h
lines 678-679, body in `type.c` which is not among the sources; behavior
from the header doc at lines 673-677 and spec §4.1: "`size * 8` with
overflow detection, signaling an error rather than wrapping"). -/
def drgn_type_bit_size (type : drgn_type) : Except drgn_error Nat :=
  match drgn_type_sizeof type with
  | .error err => .error err
  | .ok size =>
    if size > UINT64_MAX / 8 then .error .overflow
    else .ok (size * 8)

/-!
Type creation (type.h lines 218-585)

The creation functions are declared in the header; their bodies live in
`type.c`, which is not among the sources, so they are modelled from the
spec (§3 invariants, §4.3 builders, §7 error taxonomy) and the header doc
comments.  Program/language bookkeeping and allocation are elided: each
creator returns the descriptor (or an error for the fallible ones), with
builders represented by the ordered lists they accumulated.
-/

/-- Accessor `drgn_type_is_complete`: structures, unions, classes, enums
and arrays carry an `is_complete` flag; the void type is incomplete; all
other kinds are complete (spec §3). -/
def drgn_type.is_complete : drgn_type → Bool
  | .void _ => false
  | .compound _ _ _ is_complete _ _ => is_complete
  | .enum _ _ _ is_complete => is_complete
  | .array _ is_complete _ _ => is_complete
  | _ => true

/-- The variable-length and completeness-dependent fields of a type are
all zero/empty/null: the size, the member/enumerator/parameter counts,
the compatible type and the array length (spec §3 invariant). -/
def drgn_type_fields_zero : drgn_type → Bool
  | .compound _ _ size _ members _ => size == 0 && members.isEmpty
  | .enum _ compatible_type enumerators _ =>
    compatible_type.isNone && enumerators.isEmpty
  | .array length _ _ _ => length == 0
  | _ => true

/-- The forward completeness invariant: when a type is incomplete, its
size, counts and compatible-type/length fields are all
zero/empty/null. -/
def drgn_type_incomplete_inv (t : drgn_type) : Bool :=
  t.is_complete || drgn_type_fields_zero t

/-- Modelled from the spec: `drgn_int_type_create` (type.h lines
244-248). -/
def drgn_int_type_create (name : String) (size : Nat) (is_signed : Bool) :
    drgn_type :=
  .int name size is_signed

/-- Modelled from the spec: `drgn_bool_type_create` (type.h lines
262-265). -/
def drgn_bool_type_create (name : String) (size : Nat) : drgn_type :=
  .bool name size

/-- Modelled from the spec: `drgn_float_type_create` (type.h lines
279-282). -/
def drgn_float_type_create (name : String) (size : Nat) : drgn_type :=
  .float name size

/-- Modelled from the spec: `drgn_complex_type_create` (type.h lines
298-302).  The real type "must not be NULL and must be a floating-point
or integer type" (header doc lines 291-292); violating that is an
`InvalidArgument` error (spec §7). -/
def drgn_complex_type_create (name : String) (size : Nat)
    (real_type : drgn_type) : Except drgn_error drgn_type :=
  if real_type.kind = .DRGN_TYPE_INT ∨ real_type.kind = .DRGN_TYPE_FLOAT then
    .ok (.complex name size real_type)
  else
    .error (.invalid_argument
      "real type of complex type must be floating-point or integer type")

/-- Modelled from the spec: `drgn_compound_type_create` (type.h lines
374-379).  The builder is represented by its accumulated member and
template-parameter lists (in insertion order, spec §4.3).  The size is
"Ignored if type is incomplete" (header doc line 367): finalization
discards it and stores 0.  An incomplete type must have no members
(spec §3 invariant; violating it is an `InvalidArgument` error per
§7). -/
def drgn_compound_type_create (kind : drgn_compound_kind)
    (members : List drgn_type_member)
    (templates : List drgn_template_parameter) (tag : Option String)
    (size : Nat) (is_complete : Bool) : Except drgn_error drgn_type :=
  if !is_complete && !members.isEmpty then
    .error (.invalid_argument "incomplete type must not have members")
  else
    .ok (.compound kind tag (if is_complete then size else 0) is_complete
      members templates)

/-- Modelled from the spec: `drgn_enum_type_create` (type.h lines
432-436).  The compatible type "Must be an integer type" (header doc
lines 425-426); violating that is an `InvalidArgument` error (§7).  The
builder is represented by its accumulated enumerator list. -/
def drgn_enum_type_create (enumerators : List drgn_type_enumerator)
    (tag : Option String) (compatible_type : drgn_type) :
    Except drgn_error drgn_type :=
  if compatible_type.kind = .DRGN_TYPE_INT then
    .ok (.enum tag (some compatible_type) enumerators true)
  else
    .error (.invalid_argument
      "compatible type of enum type must be integer type")

/-- Modelled from the spec: `drgn_incomplete_enum_type_create` (type.h
lines 451-454): "`compatible_type` is set to NULL and `num_enumerators`
is set to zero" (header doc line 441). -/
def drgn_incomplete_enum_type_create (tag : Option String) : drgn_type :=
  .enum tag none [] false

/-- Modelled from the spec: `drgn_typedef_type_create` (type.h lines
468-472). -/
def drgn_typedef_type_create (name : String)
    (aliased_type : drgn_type) (aliased_qualifiers : Int) : drgn_type :=
  .typedef name (some aliased_type) aliased_qualifiers

/-- Modelled from the spec: `drgn_pointer_type_create` (type.h lines
485-489). -/
def drgn_pointer_type_create (referenced_type : drgn_type)
    (referenced_qualifiers : Int) (size : Nat) : drgn_type :=
  .pointer size (some referenced_type) referenced_qualifiers

/-- Modelled from the spec: `drgn_array_type_create` (type.h lines
502-506): a complete array type with the given length. -/
def drgn_array_type_create (element_type : drgn_type)
    (element_qualifiers : Int) (length : Nat) : drgn_type :=
  .array length true (some element_type) element_qualifiers

/-- Modelled from the spec: `drgn_incomplete_array_type_create` (type.h
lines 520-524): "`length` is set to zero" (header doc line 511). -/
def drgn_incomplete_array_type_create (element_type : drgn_type)
    (element_qualifiers : Int) : drgn_type :=
  .array 0 false (some element_type) element_qualifiers

/-- Modelled from the spec: `drgn_function_type_create` (type.h lines
581-585).  The builder is represented by its accumulated parameter and
template-parameter lists (in insertion order, spec §4.3). -/
def drgn_function_type_create (parameters : List drgn_type_parameter)
    (templates : List drgn_template_parameter) (return_type : drgn_type)
    (return_qualifiers : Int) (is_variadic : Bool) : drgn_type :=
  .function parameters (some return_type) return_qualifiers is_variadic
    templates

/-!
Dedup cache (type.h line 47, lines 711-715)

`drgn_dedupe_type_set` is a hash set of `struct drgn_type *` compared by
a structural key; its operations live in `type.c`, which is not among the
sources, so they are modelled from the spec (§4.4): the key is
"(kind, name, size, signedness, and, for derived kinds, the identity of
the referenced/element type)"; `find_or_insert(candidate)` returns the
existing handle when a structurally equal entry exists and otherwise
inserts the candidate; entries are never removed.  The set is modelled as
the list of inserted descriptors, and a handle is an index into that
list (modelling pointer identity).
-/

/-- Modelled from the spec: structural equality used by the dedup cache
(spec §4.4).  Only the kinds without variable-length fields are deduped
(primitives, void, and the derived pointer/array/typedef kinds);
compound, enum and function types always mint a fresh identity, so the
comparison returns false for them. -/
def drgn_type_dedupe_eq : drgn_type → drgn_type → Bool
  | .void l1, .void l2 => l1 == l2
  | .int n1 s1 g1, .int n2 s2 g2 => n1 == n2 && s1 == s2 && g1 == g2
  | .bool n1 s1, .bool n2 s2 => n1 == n2 && s1 == s2
  | .float n1 s1, .float n2 s2 => n1 == n2 && s1 == s2
  | .complex n1 s1 r1, .complex n2 s2 r2 =>
    n1 == n2 && s1 == s2 && drgn_type_dedupe_eq r1 r2
  | .typedef n1 (some a1) q1, .typedef n2 (some a2) q2 =>
    n1 == n2 && q1 == q2 && drgn_type_dedupe_eq a1 a2
  | .typedef n1 none q1, .typedef n2 none q2 => n1 == n2 && q1 == q2
  | .pointer s1 (some r1) q1, .pointer s2 (some r2) q2 =>
    s1 == s2 && q1 == q2 && drgn_type_dedupe_eq r1 r2
  | .pointer s1 none q1, .pointer s2 none q2 => s1 == s2 && q1 == q2
  | .array l1 c1 (some e1) q1, .array l2 c2 (some e2) q2 =>
    l1 == l2 && c1 == c2 && q1 == q2 && drgn_type_dedupe_eq e1 e2
  | .array l1 c1 none q1, .array l2 c2 none q2 =>
    l1 == l2 && c1 == c2 && q1 == q2
  | _, _ => false

/-- Whether a type description is subject to deduplication: primitive
kinds and derived kinds whose referenced/element types are themselves
dedupe-eligible (spec §4.4). -/
def drgn_type_dedupe_eligible : drgn_type → Bool
  | .void _ => true
  | .int _ _ _ => true
  | .bool _ _ => true
  | .float _ _ => true
  | .complex _ _ real_type => drgn_type_dedupe_eligible real_type
  | .typedef _ (some aliased) _ => drgn_type_dedupe_eligible aliased
  | .typedef _ none _ => true
  | .pointer _ (some referenced) _ => drgn_type_dedupe_eligible referenced
  | .pointer _ none _ => true
  | .array _ _ (some element) _ => drgn_type_dedupe_eligible element
  | .array _ _ none _ => true
  | _ => false

/-- Index of the first entry of the dedup set structurally equal to the
candidate. -/
def drgn_dedupe_type_set_find : List drgn_type → drgn_type → Option Nat
  | [], _ => none
  | t :: rest, candidate =>
    if drgn_type_dedupe_eq t candidate then some 0
    else (drgn_dedupe_type_set_find rest candidate).map (· + 1)

/-- Modelled from the spec: `find_or_insert` on the dedup cache
(spec §4.4 contract).  Returns the handle (index) of the
structurally-equal existing entry, or appends the candidate and returns
its fresh handle. -/
def drgn_dedupe_type_set_find_or_insert (types : List drgn_type)
    (candidate : drgn_type) : Nat × List drgn_type :=
  match drgn_dedupe_type_set_find types candidate with
  | some i => (i, types)
  | none => (types.length, types ++ [candidate])

/-!
The void type (type.h lines 218-229)

`drgn_void_type` is declared in the header; its body lives in `type.c`,
which is not among the sources, so it is modelled from the spec and the
header doc: "The void type does not have any fields, so a program has a
single type descriptor per language to represent it.  This function
cannot fail."  The program's type-related state is modelled as a store
of descriptors (handle = index, modelling pointer identity) plus the
per-language table of void-type handles.  Totality of the Lean function
(it returns a plain pair, not an `Except`) models "cannot fail".
Languages are identified by number.
-/

/-- Modelled from the spec: the type-related state of a
`struct drgn_program` needed by `drgn_void_type` (spec §2, §6
owning-program lifetime). -/
structure drgn_program_types where
  types : List drgn_type
  void_types : List (Nat × Nat)

/-- First value bound to a key in an association list. -/
def assoc_lookup {α β : Type} [DecidableEq α] :
    List (α × β) → α → Option β
  | [], _ => none
  | (k, v) :: rest, key => if k = key then some v else assoc_lookup rest key

/-- Modelled from the spec: `drgn_void_type` (type.h lines 228-229).
Returns the handle of the single void-type descriptor of the given
language, creating it on first request. -/
def drgn_void_type (prog : drgn_program_types) (lang : Nat) :
    Nat × drgn_program_types :=
  match assoc_lookup prog.void_types lang with
  | some handle => (handle, prog)
  | none =>
    let handle := prog.types.length
    (handle,
     { types := prog.types ++ [.void lang],
       void_types := prog.void_types ++ [(lang, handle)] })

/-- Well-formedness of the void-type table: every registered handle
points at the void descriptor of its language. -/
def drgn_void_types_wf (prog : drgn_program_types) : Bool :=
  prog.void_types.all fun entry =>
    match prog.types.get? entry.2 with
    | some (.void l) => l == entry.1
    | _ => false

/-!
Type finders (type.h lines 38-45, 705-709)

`struct drgn_type_finder` is a singly linked chain of callbacks; the
walk over the chain happens in `drgn_program_find_type_impl`, whose body
lives in `type.c`, which is not among the sources, so it is modelled from
the spec (§4.6, §6): callbacks are tried in registration order; a
callback returning the distinguished not-found error lets the chain
continue; success or any other error stops the chain; if every finder
reports not-found, the lookup reports not-found (header doc line 702:
"`&drgn_not_found` if the type wasn't found").  The chain is modelled as
a list walked head-first, and registration appends to the list.
-/

/-- The struct `drgn_type_finder` (type.h lines 38-45): the callback
(`drgn_type_find_fn`) together with its opaque argument, modelled as a
function from the request to the outcome; the `next` pointer becomes the
tail of the chain list. -/
structure drgn_type_finder where
  fn : drgn_type_kind → String → Option String →
    Except drgn_error drgn_qualified_type

/-- Modelled from the spec: registering a type finder appends it to the
chain, so the chain order is registration order (spec §4.6). -/
def drgn_program_add_type_finder (finders : List drgn_type_finder)
    (finder : drgn_type_finder) : List drgn_type_finder :=
  finders ++ [finder]

/-- Modelled from the spec: `drgn_program_find_type_impl` (type.h lines
705-709; body in `type.c`, not among the sources; contract from spec
§4.6). -/
def drgn_program_find_type_impl (finders : List drgn_type_finder)
    (kind : drgn_type_kind) (name : String) (filename : Option String) :
    Except drgn_error drgn_qualified_type :=
  match finders with
  | [] => .error .not_found
  | finder :: rest =>
    match finder.fn kind name filename with
    | .ok qt => .ok qt
    | .error err =>
      if err = .not_found then
        drgn_program_find_type_impl rest kind name filename
      else
        .error err

/-!
Member lookup cache (type.h lines 49-78, 731-735)

`drgn_member_key`, `drgn_member_value` and the `drgn_member_map` /
`drgn_type_set` containers are declared in the header;
`drgn_program_find_member` is declared with the contract "matches the
members of the type itself as well as the members of any unnamed members"
and "caches all members of the type for subsequent calls" (type.h lines
717-730); its body lives in `type.c`, which is not among the sources, so
it is modelled from the spec (§4.5).

In the C code the member map is keyed by the address of the outer type
and the member name; here a type handle (`Nat`) stands for the address.
The C flattening recursion is unbounded (a malformed cyclic chain of
anonymous members would never terminate); the model adds explicit fuel,
with a dedicated `recursion_limit` error standing for that divergence.
The theorems hypothesize that the traversal completed.
-/

/-- The struct `drgn_member_value` (type.h lines 57-60): the member's lazy
type, bit offset and bit field size.  The C struct stores a pointer to
the lazy type; the model stores the lazy type itself. -/
structure drgn_member_value where
  type : drgn_lazy_type
  bit_offset : Nat
  bit_field_size : Nat

/-- Keys of the member map: `struct drgn_member_key` (type.h lines
50-54) with the outer type's address modelled as a handle. -/
abbrev drgn_member_key := Nat × String

/-- The member map (`drgn_member_map`, type.h lines 75-76), modelled as
an association list searched front to back. -/
abbrev drgn_member_map := List (drgn_member_key × drgn_member_value)

/-- First value bound to a key in the member map. -/
def drgn_member_map_search (map : drgn_member_map) (key : drgn_member_key) :
    Option drgn_member_value :=
  match map with
  | [] => none
  | (k, v) :: rest =>
    if k = key then some v else drgn_member_map_search rest key

/-- Insertion into the member map.  Like the C hash-map insert, it keeps
the existing entry when the key is already bound (so the first member
found in declaration order, depth first, wins; spec §4.5 tie-break). -/
def drgn_member_map_insert (map : drgn_member_map) (key : drgn_member_key)
    (value : drgn_member_value) : drgn_member_map :=
  if (drgn_member_map_search map key).isSome then map
  else map ++ [(key, value)]

/-- Member list of a type: the members of a structure, union or class;
every other kind has none (`drgn_type_has_members`). -/
def drgn_type.members : drgn_type → List drgn_type_member
  | .compound _ _ _ _ members _ => members
  | _ => []

/-- Name component of a `drgn_type_member`. -/
def drgn_type_member_name : drgn_type_member → Option String
  | .mk _ name _ _ => name

/-- Lazy-type component of a `drgn_type_member`. -/
def drgn_type_member_type : drgn_type_member → drgn_lazy_type
  | .mk type _ _ _ => type

/-- Modelled from the spec: the recursion of `drgn_program_cache_members`
over a member list (spec §4.5).  Named members are inserted into the map
under the outer type's handle with the accumulated bit offset added;
for an unnamed member, its lazy type is evaluated (an evaluation error is
fatal and propagates) and the members of the resulting type are cached
recursively with the unnamed member's offset added.  The fuel decreases
on every step; `recursion_limit` models the divergence of the unbounded
C recursion on malformed input. -/
def drgn_program_cache_members_impl :
    Nat → Nat → List drgn_type_member → Nat → drgn_member_map →
    Except drgn_error drgn_member_map
  | 0, _, _, _, _ => .error .recursion_limit
  | _ + 1, _, [], _, acc => .ok acc
  | fuel + 1, outer, .mk mtype mname moff mbfs :: rest, bit_offset, acc =>
    match mname with
    | some name =>
      drgn_program_cache_members_impl fuel outer rest bit_offset
        (drgn_member_map_insert acc (outer, name)
          ⟨mtype, bit_offset + moff, mbfs⟩)
    | none =>
      match (drgn_lazy_type_evaluate mtype).1 with
      | .error err => .error err
      | .ok qt =>
        match qt.type with
        | some inner =>
          match drgn_program_cache_members_impl fuel outer inner.members
              (bit_offset + moff) acc with
          | .error err => .error err
          | .ok acc' =>
            drgn_program_cache_members_impl fuel outer rest bit_offset acc'
        | none =>
          drgn_program_cache_members_impl fuel outer rest bit_offset acc

/-- The member-lookup state of a program: the shared member map plus the
set of types (handles) whose members have been cached
(`drgn_member_map members` and `drgn_type_set members_cached` fields of
`struct drgn_program`). -/
structure drgn_member_cache where
  members : drgn_member_map
  members_cached : List Nat

/-- Modelled from the spec: `drgn_program_find_member` (type.h lines
731-735; body in `type.c`, not among the sources; contract from the
header doc lines 717-730 and spec §4.5).  `type_handle` models the
address of `type`.  A hit in the map returns the cached value; on a miss
for an already-cached type the member is absent (recoverable not-found);
otherwise all (transitively flattened) members of the type are cached
first and the map is searched again. -/
def drgn_program_find_member (fuel : Nat) (cache : drgn_member_cache)
    (type_handle : Nat) (type : drgn_type) (member_name : String) :
    Except drgn_error drgn_member_value × drgn_member_cache :=
  match drgn_member_map_search cache.members (type_handle, member_name) with
  | some value => (.ok value, cache)
  | none =>
    if type_handle ∈ cache.members_cached then
      (.error .not_found, cache)
    else
      match drgn_program_cache_members_impl fuel type_handle type.members 0
          cache.members with
      | .error err => (.error err, cache)
      | .ok members' =>
        match drgn_member_map_search members' (type_handle, member_name) with
        | some value =>
          (.ok value, ⟨members', type_handle :: cache.members_cached⟩)
        | none =>
          (.error .not_found, ⟨members', type_handle :: cache.members_cached⟩)

/-- Declarative counterpart of the flattening search: the name is bound
to the given lazy type, bit offset and bit field size by a member of the
list, either directly or through the (evaluated) type of an unnamed
member, with the unnamed member's offset added (spec §4.5). -/
inductive drgn_member_list_reachable :
    List drgn_type_member → String → drgn_lazy_type → Nat → Nat → Prop where
  | direct {members : List drgn_type_member} {name : String}
      {mtype : drgn_lazy_type} {moff mbfs : Nat}
      (hmem : drgn_type_member.mk mtype (some name) moff mbfs ∈ members) :
      drgn_member_list_reachable members name mtype moff mbfs
  | nested {members : List drgn_type_member} {name : String}
      {mtype : drgn_lazy_type} {moff mbfs : Nat}
      {qt : drgn_qualified_type} {inner : drgn_type}
      {ltype : drgn_lazy_type} {off bfs : Nat}
      (hmem : drgn_type_member.mk mtype none moff mbfs ∈ members)
      (heval : (drgn_lazy_type_evaluate mtype).1 = .ok qt)
      (htype : qt.type = some inner)
      (hrec : drgn_member_list_reachable inner.members name ltype off bfs) :
      drgn_member_list_reachable members name ltype (moff + off) bfs

/-- A member with the given name is reachable from a type: directly or
through unnamed members (spec §4.5, type.h lines 719-721). -/
def drgn_member_reachable (type : drgn_type) (name : String)
    (ltype : drgn_lazy_type) (bit_offset bit_field_size : Nat) : Prop :=
  drgn_member_list_reachable type.members name ltype bit_offset
    bit_field_size

/-!
Theorems
-/

/-- C3: for every lazy type cell constructed by either initializer, the
qualifier field equals the sentinel `-1` exactly when the cell is
unevaluated: `drgn_lazy_type_init_thunk` always stores the sentinel (and
the thunk), and `drgn_lazy_type_init_evaluated` — under its asserted
preconditions `qualifiers != -1` and `type == NULL -> qualifiers == 0`
(type.h lines 158-160) — never stores the sentinel, so
`drgn_lazy_type_is_evaluated` (`qualifiers != -1`) correctly
discriminates the two states. -/
theorem lazy_type_sentinel_discriminates (thunk : drgn_type_thunk)
    (type : Option drgn_type) (qualifiers : Int)
    (hq : qualifiers ≠ -1) (hnull : type = none → qualifiers = 0) :
    (drgn_lazy_type_init_thunk thunk).qualifiers = -1
  ∧ drgn_lazy_type_is_evaluated (drgn_lazy_type_init_thunk thunk) = false
  ∧ (drgn_lazy_type_init_thunk thunk).payload = .thunk thunk
  ∧ (drgn_lazy_type_init_evaluated type qualifiers).qualifiers ≠ -1
  ∧ drgn_lazy_type_is_evaluated (drgn_lazy_type_init_evaluated type qualifiers)
      = true
  ∧ (drgn_lazy_type_init_evaluated type qualifiers).payload = .type type
  ∧ drgn_lazy_type_wf (drgn_lazy_type_init_thunk thunk) = true
  ∧ drgn_lazy_type_wf (drgn_lazy_type_init_evaluated type qualifiers) = true := by
  refine ⟨rfl, by simp [drgn_lazy_type_is_evaluated, drgn_lazy_type_init_thunk,
    drgn_lazy_type.qualifiers], rfl, hq, ?_, rfl, by simp [drgn_lazy_type_wf,
    drgn_lazy_type_init_thunk, drgn_lazy_type.payload,
    drgn_lazy_type.qualifiers], ?_⟩
  · simp [drgn_lazy_type_is_evaluated, drgn_lazy_type_init_evaluated,
      drgn_lazy_type.qualifiers, bne_iff_ne]
    exact hq
  · simp [drgn_lazy_type_wf, drgn_lazy_type_init_evaluated,
      drgn_lazy_type.payload, drgn_lazy_type.qualifiers, bne_iff_ne]
    exact hq

/-- Witness for C3 at a concrete thunk and a concrete evaluated pair. -/
theorem lazy_type_sentinel_discriminates_witness :
    (drgn_lazy_type_init_thunk (.mk fun _ => .ok (.mk none 0))).qualifiers = -1
  ∧ drgn_lazy_type_is_evaluated
      (drgn_lazy_type_init_thunk (.mk fun _ => .ok (.mk none 0))) = false
  ∧ (drgn_lazy_type_init_thunk (.mk fun _ => .ok (.mk none 0))).payload
      = .thunk (.mk fun _ => .ok (.mk none 0))
  ∧ (drgn_lazy_type_init_evaluated (some (.void 0)) 1).qualifiers ≠ -1
  ∧ drgn_lazy_type_is_evaluated
      (drgn_lazy_type_init_evaluated (some (.void 0)) 1) = true
  ∧ (drgn_lazy_type_init_evaluated (some (.void 0)) 1).payload
      = .type (some (.void 0))
  ∧ drgn_lazy_type_wf
      (drgn_lazy_type_init_thunk (.mk fun _ => .ok (.mk none 0))) = true
  ∧ drgn_lazy_type_wf
      (drgn_lazy_type_init_evaluated (some (.void 0)) 1) = true :=
  lazy_type_sentinel_discriminates (.mk fun _ => .ok (.mk none 0))
    (some (.void 0)) 1 (by decide) (by intro h; cases h)

/-- C1: once `drgn_lazy_type_evaluate` has succeeded on a well-formed
cell, every subsequent call succeeds, returns the same qualified type,
does not invoke any thunk again, and the cell no longer holds a thunk
(the result is cached and the thunk was released on the first success).
The hypothesis `r.qualifiers ≠ -1` is the asserted precondition of
`drgn_lazy_type_init_evaluated` (type.h line 160): thunks must produce a
real qualifier set.  Because the returned cell and result are unchanged
by the subsequent call, the statement applies to it again, covering all
later calls. -/
theorem lazy_type_evaluate_caches_success (lt lt' : drgn_lazy_type)
    (r : drgn_qualified_type) (invoked : Option drgn_type_thunk)
    (hwf : drgn_lazy_type_wf lt = true)
    (h : drgn_lazy_type_evaluate lt = (.ok r, lt', invoked))
    (hq : r.qualifiers ≠ -1) :
    drgn_lazy_type_evaluate lt' = (.ok r, lt', none)
  ∧ (∀ th, lt'.payload ≠ .thunk th)
  ∧ drgn_lazy_type_is_evaluated lt' = true := by
  obtain ⟨p, q⟩ := lt
  cases p with
  | type t =>
    have hq1 : (q != -1) = true := by
      simpa [drgn_lazy_type_wf, drgn_lazy_type.payload,
        drgn_lazy_type.qualifiers] using hwf
    simp only [drgn_lazy_type_evaluate, drgn_lazy_type_is_evaluated,
      drgn_lazy_type.qualifiers, drgn_lazy_type.payload, hq1, if_true,
      drgn_lazy_payload.type_member, Prod.mk.injEq, Except.ok.injEq] at h
    obtain ⟨hr, hlt', hinv⟩ := h
    subst hlt'
    subst hr
    refine ⟨?_, ?_, ?_⟩
    · simp only [drgn_lazy_type_evaluate, drgn_lazy_type_is_evaluated,
        drgn_lazy_type.qualifiers, drgn_lazy_type.payload, hq1, if_true,
        drgn_lazy_payload.type_member]
    · intro th hth
      simp [drgn_lazy_type.payload] at hth
    · simpa [drgn_lazy_type_is_evaluated, drgn_lazy_type.qualifiers]
        using hq1
  | thunk th =>
    have hq1 : q = -1 := by
      simpa [drgn_lazy_type_wf, drgn_lazy_type.payload,
        drgn_lazy_type.qualifiers] using hwf
    subst hq1
    cases hfn : th.evaluate_fn () with
    | error err =>
      simp [drgn_lazy_type_evaluate, drgn_lazy_type_is_evaluated,
        drgn_lazy_type.qualifiers, drgn_lazy_type.payload, hfn] at h
    | ok qt =>
      obtain ⟨qtt, qtq⟩ := qt
      simp only [drgn_lazy_type_evaluate, drgn_lazy_type_is_evaluated,
        drgn_lazy_type.qualifiers, drgn_lazy_type.payload,
        bne_self_eq_false, Bool.false_eq_true, if_false, hfn,
        drgn_lazy_type_init_evaluated, drgn_qualified_type.type,
        drgn_qualified_type.qualifiers, Prod.mk.injEq, Except.ok.injEq] at h
      obtain ⟨hr, hlt', hinv⟩ := h
      subst hlt'
      subst hr
      have hq2 : (qtq != -1) = true := by
        simpa [bne_iff_ne, drgn_qualified_type.qualifiers] using hq
      refine ⟨?_, ?_, ?_⟩
      · simp only [drgn_lazy_type_evaluate, drgn_lazy_type_is_evaluated,
          drgn_lazy_type.qualifiers, drgn_lazy_type.payload, hq2, if_true,
          drgn_lazy_payload.type_member]
      · intro th' hth'
        simp [drgn_lazy_type.payload] at hth'
      · simpa [drgn_lazy_type_is_evaluated, drgn_lazy_type.qualifiers]
          using hq2

/-- Witness for C1: a thunk producing the void type is evaluated once;
the resulting cell returns the cached value without invoking a thunk. -/
theorem lazy_type_evaluate_caches_success_witness :
    drgn_lazy_type_evaluate (.mk (.type (some (.void 0))) 0)
      = (.ok (.mk (some (.void 0)) 0), .mk (.type (some (.void 0))) 0, none)
  ∧ (∀ th, (drgn_lazy_type.mk (.type (some (.void 0))) 0).payload
      ≠ .thunk th)
  ∧ drgn_lazy_type_is_evaluated (.mk (.type (some (.void 0))) 0) = true :=
  lazy_type_evaluate_caches_success
    (drgn_lazy_type_init_thunk (.mk fun _ => .ok (.mk (some (.void 0)) 0)))
    (.mk (.type (some (.void 0))) 0) (.mk (some (.void 0)) 0)
    (some (.mk fun _ => .ok (.mk (some (.void 0)) 0)))
    (by rfl) (by rfl) (by decide)

/-- C2: if a call to `drgn_lazy_type_evaluate` on an unevaluated cell
fails, the cell is returned unchanged — still unevaluated, with its
original thunk intact — and a subsequent call invokes that same thunk
again. -/
theorem lazy_type_evaluate_failure_retries (lt : drgn_lazy_type)
    (th : drgn_type_thunk) (e : drgn_error)
    (hp : lt.payload = .thunk th)
    (hu : drgn_lazy_type_is_evaluated lt = false)
    (hf : (drgn_lazy_type_evaluate lt).1 = .error e) :
    drgn_lazy_type_evaluate lt = (.error e, lt, some th)
  ∧ drgn_lazy_type_is_evaluated (drgn_lazy_type_evaluate lt).2.1 = false
  ∧ (drgn_lazy_type_evaluate lt).2.1.payload = .thunk th
  ∧ (drgn_lazy_type_evaluate (drgn_lazy_type_evaluate lt).2.1).2.2
      = some th := by
  obtain ⟨p, q⟩ := lt
  simp only [drgn_lazy_type.payload] at hp
  subst hp
  cases hfn : th.evaluate_fn () with
  | ok qt =>
    simp [drgn_lazy_type_evaluate, drgn_lazy_type.payload, hu, hfn] at hf
  | error err =>
    have heval : drgn_lazy_type_evaluate (.mk (.thunk th) q)
        = (.error err, .mk (.thunk th) q, some th) := by
      simp [drgn_lazy_type_evaluate, drgn_lazy_type.payload, hu, hfn]
    rw [heval] at hf
    simp only [Except.error.injEq] at hf
    subst hf
    refine ⟨heval, ?_, ?_, ?_⟩
    · rw [heval]
      exact hu
    · simp [heval, drgn_lazy_type.payload]
    · simp [heval]

/-- Witness for C2: a thunk that always fails leaves the cell
unevaluated with the same thunk, and the retry invokes it again. -/
theorem lazy_type_evaluate_failure_retries_witness :
    drgn_lazy_type_evaluate
        (drgn_lazy_type_init_thunk (.mk fun _ => .error .not_found))
      = (.error .not_found,
         drgn_lazy_type_init_thunk (.mk fun _ => .error .not_found),
         some (.mk fun _ => .error .not_found))
  ∧ drgn_lazy_type_is_evaluated
      (drgn_lazy_type_evaluate
        (drgn_lazy_type_init_thunk (.mk fun _ => .error .not_found))).2.1
      = false
  ∧ (drgn_lazy_type_evaluate
      (drgn_lazy_type_init_thunk
        (.mk fun _ => .error .not_found))).2.1.payload
      = .thunk (.mk fun _ => .error .not_found)
  ∧ (drgn_lazy_type_evaluate (drgn_lazy_type_evaluate
      (drgn_lazy_type_init_thunk
        (.mk fun _ => .error .not_found))).2.1).2.2
      = some (.mk fun _ => .error .not_found) :=
  lazy_type_evaluate_failure_retries
    (drgn_lazy_type_init_thunk (.mk fun _ => .error .not_found))
    (.mk fun _ => .error .not_found) .not_found (by rfl) (by rfl) (by rfl)

/-- C4: on a fully linked typedef chain, `drgn_underlying_type` returns a
non-typedef type, reached after exactly `drgn_typedef_depth` unwrapping
steps (one per typedef on the chain), and a non-typedef type is returned
unchanged.  Termination itself is witnessed by `drgn_underlying_type`
being a total function. -/
theorem underlying_type_unwraps_chain (t : drgn_type)
    (h : drgn_typedef_chain_linked t = true) :
    (drgn_underlying_type t).kind ≠ .DRGN_TYPE_TYPEDEF
  ∧ drgn_underlying_type t
      = drgn_unwrap_typedef_iter (drgn_typedef_depth t) t
  ∧ (t.kind ≠ .DRGN_TYPE_TYPEDEF → drgn_underlying_type t = t) := by
  induction t using drgn_underlying_type.induct with
  | case1 name aliased q ih =>
    have hl : drgn_typedef_chain_linked aliased = true := by
      simpa [drgn_typedef_chain_linked] using h
    obtain ⟨ih1, ih2, _⟩ := ih hl
    refine ⟨?_, ?_, ?_⟩
    · simpa [drgn_underlying_type] using ih1
    · simp [drgn_underlying_type, drgn_typedef_depth,
        drgn_unwrap_typedef_iter, drgn_unwrap_typedef_step, ih2]
    · intro hk
      simp [drgn_type.kind] at hk
  | case2 t hne =>
    cases t with
    | typedef name aliased q =>
      cases aliased with
      | some a => exact absurd rfl (hne name a q)
      | none => simp [drgn_typedef_chain_linked] at h
    | void lang =>
      exact ⟨by simp [drgn_underlying_type, drgn_type.kind], by
        simp [drgn_underlying_type, drgn_typedef_depth,
          drgn_unwrap_typedef_iter], fun _ => by simp [drgn_underlying_type]⟩
    | int name size is_signed =>
      exact ⟨by simp [drgn_underlying_type, drgn_type.kind], by
        simp [drgn_underlying_type, drgn_typedef_depth,
          drgn_unwrap_typedef_iter], fun _ => by simp [drgn_underlying_type]⟩
    | bool name size =>
      exact ⟨by simp [drgn_underlying_type, drgn_type.kind], by
        simp [drgn_underlying_type, drgn_typedef_depth,
          drgn_unwrap_typedef_iter], fun _ => by simp [drgn_underlying_type]⟩
    | float name size =>
      exact ⟨by simp [drgn_underlying_type, drgn_type.kind], by
        simp [drgn_underlying_type, drgn_typedef_depth,
          drgn_unwrap_typedef_iter], fun _ => by simp [drgn_underlying_type]⟩
    | complex name size real_type =>
      exact ⟨by simp [drgn_underlying_type, drgn_type.kind], by
        simp [drgn_underlying_type, drgn_typedef_depth,
          drgn_unwrap_typedef_iter], fun _ => by simp [drgn_underlying_type]⟩
    | compound kind tag size is_complete members templates =>
      refine ⟨?_, by simp [drgn_underlying_type, drgn_typedef_depth,
          drgn_unwrap_typedef_iter], fun _ => by simp [drgn_underlying_type]⟩
      cases kind <;>
        simp [drgn_underlying_type, drgn_type.kind, drgn_compound_kind.to_kind]
    | enum tag compatible_type enumerators is_complete =>
      exact ⟨by simp [drgn_underlying_type, drgn_type.kind], by
        simp [drgn_underlying_type, drgn_typedef_depth,
          drgn_unwrap_typedef_iter], fun _ => by simp [drgn_underlying_type]⟩
    | pointer size referenced_type referenced_qualifiers =>
      exact ⟨by simp [drgn_underlying_type, drgn_type.kind], by
        simp [drgn_underlying_type, drgn_typedef_depth,
          drgn_unwrap_typedef_iter], fun _ => by simp [drgn_underlying_type]⟩
    | array length is_complete element_type element_qualifiers =>
      exact ⟨by simp [drgn_underlying_type, drgn_type.kind], by
        simp [drgn_underlying_type, drgn_typedef_depth,
          drgn_unwrap_typedef_iter], fun _ => by simp [drgn_underlying_type]⟩
    | function parameters return_type return_qualifiers is_variadic
        templates =>
      exact ⟨by simp [drgn_underlying_type, drgn_type.kind], by
        simp [drgn_underlying_type, drgn_typedef_depth,
          drgn_unwrap_typedef_iter], fun _ => by simp [drgn_underlying_type]⟩

/-- Witness for C4: the chain `T3 -> T2 -> T1 -> int` of depth 3 resolves
to the `int` descriptor in exactly 3 unwrapping steps. -/
theorem underlying_type_unwraps_chain_witness :
    drgn_underlying_type
        (.typedef ("T3") (some (.typedef ("T2") (some (.typedef ("T1")
          (some (.int "int" 4 true)) 0)) 0)) 0)
      = .int "int" 4 true
  ∧ drgn_typedef_depth
        (.typedef ("T3") (some (.typedef ("T2") (some (.typedef ("T1")
          (some (.int "int" 4 true)) 0)) 0)) 0) = 3
  ∧ drgn_unwrap_typedef_iter 3
        (.typedef ("T3") (some (.typedef ("T2") (some (.typedef ("T1")
          (some (.int "int" 4 true)) 0)) 0)) 0)
      = .int "int" 4 true
  ∧ (drgn_underlying_type
        (.typedef ("T3") (some (.typedef ("T2") (some (.typedef ("T1")
          (some (.int "int" 4 true)) 0)) 0)) 0)).kind
      ≠ .DRGN_TYPE_TYPEDEF := by
  have h := underlying_type_unwraps_chain
    (.typedef ("T3") (some (.typedef ("T2") (some (.typedef ("T1")
      (some (.int "int" 4 true)) 0)) 0)) 0) (by rfl)
  exact ⟨by rfl, by rfl, by rfl, h.1⟩

/-- C5: `drgn_type_bit_size` returns exactly `size * 8` (a value that
fits in unsigned 64-bit arithmetic) whenever the byte size of the type
does not exceed `UINT64_MAX / 8`, and returns the Overflow error —
rather than a wrapped or truncated value — whenever the byte size
exceeds `UINT64_MAX / 8`. -/
theorem bit_size_times_eight_or_overflow (t : drgn_type) (size : Nat)
    (h : drgn_type_sizeof t = .ok size) :
    (size ≤ UINT64_MAX / 8 →
      drgn_type_bit_size t = .ok (size * 8) ∧ size * 8 ≤ UINT64_MAX)
  ∧ (UINT64_MAX / 8 < size → drgn_type_bit_size t = .error .overflow) := by
  constructor
  · intro hle
    constructor
    · simp [drgn_type_bit_size, h, Nat.not_lt.mpr hle]
    · have h8 : size * 8 ≤ (UINT64_MAX / 8) * 8 :=
        Nat.mul_le_mul_right 8 hle
      calc size * 8 ≤ (UINT64_MAX / 8) * 8 := h8
        _ ≤ UINT64_MAX := Nat.div_mul_le_self UINT64_MAX 8
  · intro hlt
    simp [drgn_type_bit_size, h, hlt]

/-- Witness for C5: a 4-byte int has bit size 32; an int whose byte size
is `UINT64_MAX` overflows instead of wrapping. -/
theorem bit_size_times_eight_or_overflow_witness :
    (drgn_type_bit_size (.int "int" 4 true) = .ok 32 ∧ 32 ≤ UINT64_MAX)
  ∧ drgn_type_bit_size (.int "huge" UINT64_MAX false)
      = .error .overflow := by
  have h1 := (bit_size_times_eight_or_overflow (.int "int" 4 true) 4
    (by rfl)).1 (by norm_num [UINT64_MAX])
  have h2 := (bit_size_times_eight_or_overflow (.int "huge" UINT64_MAX false)
    UINT64_MAX (by rfl)).2 (by norm_num [UINT64_MAX])
  exact ⟨⟨h1.1, by norm_num [UINT64_MAX]⟩, h2⟩

/-- C6: the finder chain is walked head-first, i.e. in registration order
(`drgn_program_add_type_finder` appends): a finder returning the
distinguished not-found error lets the chain continue with the rest, the
first finder returning success stops the chain and its result is
returned, a finder returning any other error stops the chain and that
error propagates, and a chain whose finders all report not-found — in
particular the empty chain — reports not-found. -/
theorem find_type_tries_finders_in_order (kind : drgn_type_kind)
    (name : String) (filename : Option String) :
    drgn_program_find_type_impl [] kind name filename = .error .not_found
  ∧ (∀ (f : drgn_type_finder) (rest : List drgn_type_finder),
      f.fn kind name filename = .error .not_found →
      drgn_program_find_type_impl (f :: rest) kind name filename
        = drgn_program_find_type_impl rest kind name filename)
  ∧ (∀ (f : drgn_type_finder) (rest : List drgn_type_finder)
      (qt : drgn_qualified_type), f.fn kind name filename = .ok qt →
      drgn_program_find_type_impl (f :: rest) kind name filename = .ok qt)
  ∧ (∀ (f : drgn_type_finder) (rest : List drgn_type_finder)
      (e : drgn_error), f.fn kind name filename = .error e →
      e ≠ .not_found →
      drgn_program_find_type_impl (f :: rest) kind name filename
        = .error e)
  ∧ (∀ finders : List drgn_type_finder,
      (∀ f ∈ finders, f.fn kind name filename = .error .not_found) →
      drgn_program_find_type_impl finders kind name filename
        = .error .not_found) := by
  refine ⟨rfl, ?_, ?_, ?_, ?_⟩
  · intro f rest hf
    simp [drgn_program_find_type_impl, hf]
  · intro f rest qt hf
    simp [drgn_program_find_type_impl, hf]
  · intro f rest e hf hne
    simp [drgn_program_find_type_impl, hf, hne]
  · intro finders hall
    induction finders with
    | nil => rfl
    | cons f rest ih =>
      have hf := hall f (List.mem_cons_self f rest)
      rw [drgn_program_find_type_impl, hf]
      simp only [if_pos rfl]
      exact ih fun g hg => hall g (List.mem_cons_of_mem f hg)

/-- Witness for C6, the end-to-end scenario of the spec: with F1 (always
not-found) registered before F2 (resolves "Foo" to a struct type),
requesting "Foo" consults F1 first (the chain continues past it) and
returns F2's result. -/
theorem find_type_tries_finders_in_order_witness :
    drgn_program_find_type_impl
        (drgn_program_add_type_finder
          (drgn_program_add_type_finder []
            (.mk fun _ _ _ => .error .not_found))
          (.mk fun _ n _ =>
            if n = "Foo" then
              .ok (.mk (some (.compound .DRGN_TYPE_STRUCT (some "Foo") 8
                true [] [])) 0)
            else .error .not_found))
        .DRGN_TYPE_STRUCT "Foo" none
      = .ok (.mk (some (.compound .DRGN_TYPE_STRUCT (some "Foo") 8
          true [] [])) 0)
  ∧ drgn_program_find_type_impl
        (drgn_program_add_type_finder
          (drgn_program_add_type_finder []
            (.mk fun _ _ _ => .error .not_found))
          (.mk fun _ n _ =>
            if n = "Foo" then
              .ok (.mk (some (.compound .DRGN_TYPE_STRUCT (some "Foo") 8
                true [] [])) 0)
            else .error .not_found))
        .DRGN_TYPE_STRUCT "Foo" none
      = drgn_program_find_type_impl
          [.mk fun _ n _ =>
            if n = "Foo" then
              .ok (.mk (some (.compound .DRGN_TYPE_STRUCT (some "Foo") 8
                true [] [])) 0)
            else .error .not_found]
          .DRGN_TYPE_STRUCT "Foo" none := by
  have h := find_type_tries_finders_in_order .DRGN_TYPE_STRUCT "Foo" none
  have hskip := h.2.1 (.mk fun _ _ _ => .error .not_found)
    [.mk fun _ n _ =>
      if n = "Foo" then
        .ok (.mk (some (.compound .DRGN_TYPE_STRUCT (some "Foo") 8
          true [] [])) 0)
      else .error .not_found] (by rfl)
  have hhit := h.2.2.1
    (.mk fun _ n _ =>
      if n = "Foo" then
        .ok (.mk (some (.compound .DRGN_TYPE_STRUCT (some "Foo") 8
          true [] [])) 0)
      else .error .not_found) []
    (.mk (some (.compound .DRGN_TYPE_STRUCT (some "Foo") 8 true [] [])) 0)
    (by rfl)
  constructor
  · show drgn_program_find_type_impl
      (.mk (fun _ _ _ => .error .not_found) ::
        [.mk fun _ n _ =>
          if n = "Foo" then
            .ok (.mk (some (.compound .DRGN_TYPE_STRUCT (some "Foo") 8
              true [] [])) 0)
          else .error .not_found])
      .DRGN_TYPE_STRUCT "Foo" none = _
    rw [hskip, hhit]
  · show drgn_program_find_type_impl
      (.mk (fun _ _ _ => .error .not_found) ::
        [.mk fun _ n _ =>
          if n = "Foo" then
            .ok (.mk (some (.compound .DRGN_TYPE_STRUCT (some "Foo") 8
              true [] [])) 0)
          else .error .not_found])
      .DRGN_TYPE_STRUCT "Foo" none = _
    rw [hskip]

/-- The dedup structural comparison is reflexive on dedupe-eligible
descriptions. -/
theorem drgn_type_dedupe_eq_self (t : drgn_type)
    (h : drgn_type_dedupe_eligible t = true) :
    drgn_type_dedupe_eq t t = true := by
  induction t using drgn_type_dedupe_eligible.induct <;>
    simp_all [drgn_type_dedupe_eligible, drgn_type_dedupe_eq]

/-- Appending a candidate that was not yet in the dedup set makes it
findable at the old length. -/
theorem drgn_dedupe_type_set_find_append_self (types : List drgn_type)
    (cand : drgn_type) (hnone : drgn_dedupe_type_set_find types cand = none)
    (hrefl : drgn_type_dedupe_eq cand cand = true) :
    drgn_dedupe_type_set_find (types ++ [cand]) cand
      = some types.length := by
  induction types with
  | nil => simp [drgn_dedupe_type_set_find, hrefl]
  | cons t rest ih =>
    rw [drgn_dedupe_type_set_find] at hnone
    by_cases heq : drgn_type_dedupe_eq t cand = true
    · simp [heq] at hnone
    · rw [Bool.not_eq_true] at heq
      rw [heq] at hnone
      simp only [Bool.false_eq_true, if_false, Option.map_eq_none']
        at hnone
      simp [drgn_dedupe_type_set_find, heq, ih hnone]

/-- C8: `find_or_insert` on the dedup cache, applied twice to the same
(dedupe-eligible) candidate description, returns the identical handle
both times and the identical cache state; when a structurally equal
entry already exists, the call is a no-op that returns the existing
handle; and no entry is ever removed (every previously stored descriptor
stays at its handle). -/
theorem dedupe_find_or_insert_idempotent (types : List drgn_type)
    (cand : drgn_type) (helig : drgn_type_dedupe_eligible cand = true) :
    drgn_dedupe_type_set_find_or_insert
        (drgn_dedupe_type_set_find_or_insert types cand).2 cand
      = drgn_dedupe_type_set_find_or_insert types cand
  ∧ (∀ i, drgn_dedupe_type_set_find types cand = some i →
      drgn_dedupe_type_set_find_or_insert types cand = (i, types))
  ∧ (∀ i, i < types.length →
      (drgn_dedupe_type_set_find_or_insert types cand).2.get? i
        = types.get? i) := by
  have hrefl := drgn_type_dedupe_eq_self cand helig
  cases hfind : drgn_dedupe_type_set_find types cand with
  | some i =>
    have h1 : drgn_dedupe_type_set_find_or_insert types cand = (i, types) := by
      simp [drgn_dedupe_type_set_find_or_insert, hfind]
    refine ⟨?_, ?_, ?_⟩
    · rw [h1]
      simpa [drgn_dedupe_type_set_find_or_insert, hfind] using h1
    · intro j hj
      cases hj
      exact h1
    · intro j _
      rw [h1]
  | none =>
    have h1 : drgn_dedupe_type_set_find_or_insert types cand
        = (types.length, types ++ [cand]) := by
      simp [drgn_dedupe_type_set_find_or_insert, hfind]
    have h2 := drgn_dedupe_type_set_find_append_self types cand hfind hrefl
    refine ⟨?_, ?_, ?_⟩
    · rw [h1]
      simp [drgn_dedupe_type_set_find_or_insert, h2]
    · intro j hj
      exact Option.noConfusion hj
    · intro j hj
      rw [h1]
      exact List.get?_append hj

/-- Witness for C8: creating the `int` description twice through the
dedup cache starting from an empty cache yields handle 0 both times. -/
theorem dedupe_find_or_insert_idempotent_witness :
    drgn_dedupe_type_set_find_or_insert
        (drgn_dedupe_type_set_find_or_insert [] (.int "int" 4 true)).2
        (.int "int" 4 true)
      = drgn_dedupe_type_set_find_or_insert [] (.int "int" 4 true)
  ∧ drgn_dedupe_type_set_find_or_insert [] (.int "int" 4 true)
      = (0, [.int "int" 4 true]) :=
  ⟨(dedupe_find_or_insert_idempotent [] (.int "int" 4 true) (by rfl)).1,
   by rfl⟩

/-- A successful association-list lookup comes from an entry of the
list. -/
theorem assoc_lookup_mem {α β : Type} [DecidableEq α]
    (l : List (α × β)) (k : α) (v : β) (h : assoc_lookup l k = some v) :
    (k, v) ∈ l := by
  induction l with
  | nil => exact Option.noConfusion h
  | cons e rest ih =>
    obtain ⟨e1, e2⟩ := e
    rw [assoc_lookup] at h
    by_cases hk : e1 = k
    · subst hk
      rw [if_pos rfl, Option.some.injEq] at h
      subst h
      exact List.mem_cons_self _ _
    · rw [if_neg hk] at h
      exact List.mem_cons_of_mem _ (ih h)

/-- Appending a binding for a key that has no binding yet makes it the
one that is found. -/
theorem assoc_lookup_append_self {α β : Type} [DecidableEq α]
    (l : List (α × β)) (k : α) (v : β) (h : assoc_lookup l k = none) :
    assoc_lookup (l ++ [(k, v)]) k = some v := by
  induction l with
  | nil => simp [assoc_lookup]
  | cons e rest ih =>
    rw [assoc_lookup] at h
    by_cases hk : e.1 = k
    · rw [if_pos hk] at h
      exact Option.noConfusion h
    · rw [if_neg hk] at h
      rw [List.cons_append, assoc_lookup, if_neg hk]
      exact ih h

/-- C10: requesting the void type cannot fail (`drgn_void_type` is a
total function into a handle/state pair) and is idempotent: a second
request with the same program state and language returns the identical
handle and the identical state, the handle refers to the (unique) void
descriptor of that language, and the void-type table stays
well-formed. -/
theorem void_type_unique_per_language (prog : drgn_program_types)
    (lang : Nat) (hwf : drgn_void_types_wf prog = true) :
    drgn_void_type (drgn_void_type prog lang).2 lang
      = drgn_void_type prog lang
  ∧ (drgn_void_type prog lang).2.types.get? (drgn_void_type prog lang).1
      = some (.void lang)
  ∧ drgn_void_types_wf (drgn_void_type prog lang).2 = true := by
  cases hlook : assoc_lookup prog.void_types lang with
  | some handle =>
    have h1 : drgn_void_type prog lang = (handle, prog) := by
      simp [drgn_void_type, hlook]
    have hmem := assoc_lookup_mem prog.void_types lang handle hlook
    have hentry := (List.all_eq_true.mp hwf) (lang, handle) hmem
    have hget : prog.types.get? handle = some (.void lang) := by
      cases hg : prog.types.get? handle with
      | none => rw [hg] at hentry; exact Bool.noConfusion hentry
      | some t =>
        cases t with
        | void l =>
          rw [hg] at hentry
          simp only [beq_iff_eq] at hentry
          rw [hentry]
        | int name size is_signed => rw [hg] at hentry; exact Bool.noConfusion hentry
        | bool name size => rw [hg] at hentry; exact Bool.noConfusion hentry
        | float name size => rw [hg] at hentry; exact Bool.noConfusion hentry
        | complex name size real_type => rw [hg] at hentry; exact Bool.noConfusion hentry
        | compound kind tag size is_complete members templates =>
          rw [hg] at hentry; exact Bool.noConfusion hentry
        | enum tag compatible_type enumerators is_complete =>
          rw [hg] at hentry; exact Bool.noConfusion hentry
        | typedef name aliased_type aliased_qualifiers =>
          rw [hg] at hentry; exact Bool.noConfusion hentry
        | pointer size referenced_type referenced_qualifiers =>
          rw [hg] at hentry; exact Bool.noConfusion hentry
        | array length is_complete element_type element_qualifiers =>
          rw [hg] at hentry; exact Bool.noConfusion hentry
        | function parameters return_type return_qualifiers is_variadic
            templates =>
          rw [hg] at hentry; exact Bool.noConfusion hentry
    refine ⟨?_, ?_, ?_⟩
    · rw [h1]
      exact h1
    · rw [h1]
      exact hget
    · rw [h1]
      exact hwf
  | none =>
    have h1 : drgn_void_type prog lang
        = (prog.types.length,
           { types := prog.types ++ [.void lang],
             void_types := prog.void_types ++
               [(lang, prog.types.length)] }) := by
      simp [drgn_void_type, hlook]
    have hlook2 : assoc_lookup
        (prog.void_types ++ [(lang, prog.types.length)]) lang
        = some prog.types.length :=
      assoc_lookup_append_self prog.void_types lang prog.types.length hlook
    refine ⟨?_, ?_, ?_⟩
    · rw [h1]
      simp [drgn_void_type, hlook2]
    · rw [h1]
      exact List.get?_concat_length prog.types (.void lang)
    · rw [h1]
      simp only [drgn_void_types_wf, List.all_append, Bool.and_eq_true]
      constructor
      · refine List.all_eq_true.mpr fun entry hmem => ?_
        have hentry := (List.all_eq_true.mp hwf) entry hmem
        have hlt : ∀ t, prog.types.get? entry.2 = some t →
            (prog.types ++ [drgn_type.void lang]).get? entry.2 = some t := by
          intro t hg
          have : entry.2 < prog.types.length := by
            by_contra hge
            rw [List.get?_eq_none.mpr (Nat.le_of_not_lt hge)] at hg
            exact Option.noConfusion hg
          rw [List.get?_append this]
          exact hg
        cases hg : prog.types.get? entry.2 with
        | none => rw [hg] at hentry; exact Bool.noConfusion hentry
        | some t =>
          rw [hg] at hentry
          simp only [hlt t hg]
          exact hentry
      · simp [List.get?_concat_length]

/-- Witness for C10: requesting void (language 0) twice on a fresh
program returns handle 0 both times and the same state. -/
theorem void_type_unique_per_language_witness :
    drgn_void_type (drgn_void_type ⟨[], []⟩ 0).2 0
      = drgn_void_type ⟨[], []⟩ 0
  ∧ (drgn_void_type ⟨[], []⟩ 0).2.types.get? (drgn_void_type ⟨[], []⟩ 0).1
      = some (.void 0)
  ∧ drgn_void_types_wf (drgn_void_type ⟨[], []⟩ 0).2 = true :=
  void_type_unique_per_language ⟨[], []⟩ 0 (by rfl)

/-- C9 counterexample: `drgn_array_type_create` with length 0 produces a
*complete* array type whose size/count/compatible/length fields are
nevertheless all zero/empty/null, so "all zero/empty/null exactly when
`is_complete` is false" fails (its right-to-left direction is violated
at this type). -/
theorem complete_zero_length_array_refutes_iff :
    drgn_type_fields_zero (drgn_array_type_create (.int "int" 4 true) 0 0)
      = true
  ∧ (drgn_array_type_create (.int "int" 4 true) 0 0).is_complete
      = true :=
  ⟨rfl, rfl⟩

/-- C9 (amended): for every type descriptor produced by any construction
function, *if* the descriptor is incomplete *then* its size, its
member/enumerator/parameter counts and its compatible-type/length fields
are all zero/empty/null; in particular an incomplete enum is created
with null compatible type and zero enumerators, an incomplete array with
length zero, and compound-type finalization discards the supplied size
when `is_complete` is false.  (The converse direction of the original
claim fails, see the counterexample: a complete zero-length array has
all these fields zero while `is_complete` is true.) -/
theorem creators_establish_incomplete_invariant
    (name : String) (size : Nat) (is_signed : Bool) (real_type : drgn_type)
    (kind : drgn_compound_kind) (members : List drgn_type_member)
    (templates : List drgn_template_parameter) (tag : Option String)
    (is_complete : Bool) (enumerators : List drgn_type_enumerator)
    (compatible_type aliased_type referenced_type element_type
      return_type : drgn_type)
    (q : Int) (length : Nat) (parameters : List drgn_type_parameter)
    (is_variadic : Bool) (lang : Nat) :
    drgn_type_incomplete_inv (.void lang) = true
  ∧ drgn_type_incomplete_inv (drgn_int_type_create name size is_signed)
      = true
  ∧ drgn_type_incomplete_inv (drgn_bool_type_create name size) = true
  ∧ drgn_type_incomplete_inv (drgn_float_type_create name size) = true
  ∧ (∀ t, drgn_complex_type_create name size real_type = .ok t →
      drgn_type_incomplete_inv t = true)
  ∧ (∀ t, drgn_compound_type_create kind members templates tag size
        is_complete = .ok t →
      drgn_type_incomplete_inv t = true
      ∧ (is_complete = false →
          t = .compound kind tag 0 false members templates))
  ∧ (∀ t, drgn_enum_type_create enumerators tag compatible_type = .ok t →
      drgn_type_incomplete_inv t = true)
  ∧ (drgn_incomplete_enum_type_create tag = .enum tag none [] false
      ∧ drgn_type_incomplete_inv (drgn_incomplete_enum_type_create tag)
          = true)
  ∧ drgn_type_incomplete_inv
      (drgn_typedef_type_create name aliased_type q) = true
  ∧ drgn_type_incomplete_inv
      (drgn_pointer_type_create referenced_type q size) = true
  ∧ drgn_type_incomplete_inv
      (drgn_array_type_create element_type q length) = true
  ∧ (drgn_incomplete_array_type_create element_type q
        = .array 0 false (some element_type) q
      ∧ drgn_type_incomplete_inv
          (drgn_incomplete_array_type_create element_type q) = true)
  ∧ drgn_type_incomplete_inv
      (drgn_function_type_create parameters templates return_type q
        is_variadic) = true := by
  refine ⟨rfl, rfl, rfl, rfl, ?_, ?_, ?_, ⟨rfl, rfl⟩, rfl, rfl, ?_,
    ⟨rfl, rfl⟩, rfl⟩
  · intro t ht
    rw [drgn_complex_type_create] at ht
    split at ht
    · rw [Except.ok.injEq] at ht
      subst ht
      rfl
    · exact Except.noConfusion ht
  · intro t ht
    rw [drgn_compound_type_create] at ht
    split at ht
    · exact Except.noConfusion ht
    · next hguard =>
      rw [Except.ok.injEq] at ht
      subst ht
      cases hic : is_complete with
      | true =>
        refine ⟨?_, fun hfalse => Bool.noConfusion hfalse⟩
        simp [drgn_type_incomplete_inv, drgn_type.is_complete, hic]
      | false =>
        subst hic
        have hemp : members.isEmpty = true := by
          rw [Bool.not_eq_true] at hguard
          simpa using hguard
        refine ⟨?_, fun _ => by simp⟩
        simp [drgn_type_incomplete_inv, drgn_type.is_complete,
          drgn_type_fields_zero, hemp]
  · intro t ht
    rw [drgn_enum_type_create] at ht
    split at ht
    · rw [Except.ok.injEq] at ht
      subst ht
      rfl
    · exact Except.noConfusion ht
  · cases element_type <;> rfl

/-- Witness for C9 (amended) at concrete inputs: finalizing an incomplete
struct with a supplied size of 24 discards the size, and the incomplete
enum/array creators produce the all-null/zero descriptors. -/
theorem creators_establish_incomplete_invariant_witness :
    (∃ t, drgn_compound_type_create .DRGN_TYPE_STRUCT [] [] (some "S") 24
        false = .ok t
      ∧ drgn_type_incomplete_inv t = true
      ∧ t = .compound .DRGN_TYPE_STRUCT (some "S") 0 false [] [])
  ∧ drgn_incomplete_enum_type_create (some "S")
      = .enum (some "S") none [] false
  ∧ drgn_incomplete_array_type_create (.int "int" 4 true) 0
      = .array 0 false (some (.int "int" 4 true)) 0 := by
  have h := creators_establish_incomplete_invariant "int" 24 true
    (.int "int" 4 true) .DRGN_TYPE_STRUCT [] [] (some "S") false []
    (.int "int" 4 true) (.int "int" 4 true) (.int "int" 4 true)
    (.int "int" 4 true) (.int "int" 4 true) 0 0 [] false 0
  have hcompound := h.2.2.2.2.2.1
    (.compound .DRGN_TYPE_STRUCT (some "S") 0 false [] []) (by rfl)
  exact ⟨⟨.compound .DRGN_TYPE_STRUCT (some "S") 0 false [] [], by rfl,
    hcompound.1, hcompound.2 rfl⟩, (h.2.2.2.2.2.2.2.1).1,
    (h.2.2.2.2.2.2.2.2.2.2.2.1).1⟩

/-- A binding found in the member map is still found after appending an
entry at the back. -/
theorem drgn_member_map_search_append_of_some (m : drgn_member_map)
    (e : drgn_member_key × drgn_member_value) (k : drgn_member_key)
    (v : drgn_member_value) (h : drgn_member_map_search m k = some v) :
    drgn_member_map_search (m ++ [e]) k = some v := by
  induction m with
  | nil => exact Option.noConfusion h
  | cons p rest ih =>
    obtain ⟨pk, pv⟩ := p
    rw [drgn_member_map_search] at h
    by_cases hk : pk = k
    · rw [if_pos hk] at h
      rw [List.cons_append, drgn_member_map_search, if_pos hk]
      exact h
    · rw [if_neg hk] at h
      rw [List.cons_append, drgn_member_map_search, if_neg hk]
      exact ih h

/-- Appending a binding for an unbound key makes it found. -/
theorem drgn_member_map_search_append_self (m : drgn_member_map)
    (k : drgn_member_key) (v : drgn_member_value)
    (h : drgn_member_map_search m k = none) :
    drgn_member_map_search (m ++ [(k, v)]) k = some v := by
  induction m with
  | nil => simp [drgn_member_map_search]
  | cons p rest ih =>
    obtain ⟨pk, pv⟩ := p
    rw [drgn_member_map_search] at h
    by_cases hk : pk = k
    · rw [if_pos hk] at h
      exact Option.noConfusion h
    · rw [if_neg hk] at h
      rw [List.cons_append, drgn_member_map_search, if_neg hk]
      exact ih h

/-- Existing bindings survive a first-wins insertion. -/
theorem drgn_member_map_insert_of_some (m : drgn_member_map)
    (k' : drgn_member_key) (v' : drgn_member_value) (k : drgn_member_key)
    (v : drgn_member_value) (h : drgn_member_map_search m k = some v) :
    drgn_member_map_search (drgn_member_map_insert m k' v') k = some v := by
  rw [drgn_member_map_insert]
  split
  · exact h
  · exact drgn_member_map_search_append_of_some m (k', v') k v h

/-- After a first-wins insertion, the key is bound. -/
theorem drgn_member_map_insert_isSome (m : drgn_member_map)
    (k : drgn_member_key) (v : drgn_member_value) :
    (drgn_member_map_search (drgn_member_map_insert m k v) k).isSome
      = true := by
  rw [drgn_member_map_insert]
  split
  · next hsome => exact hsome
  · next hnone =>
    have hnone' : drgn_member_map_search m k = none := by
      cases hs : drgn_member_map_search m k with
      | none => rfl
      | some w => rw [hs] at hnone; exact absurd rfl hnone
    rw [drgn_member_map_search_append_self m k v hnone']
    rfl

/-- A binding found behind an appended entry with a different key was
already in the front part. -/
theorem drgn_member_map_search_append_ne (m : drgn_member_map)
    (e : drgn_member_key × drgn_member_value) (k : drgn_member_key)
    (v : drgn_member_value)
    (h : drgn_member_map_search (m ++ [e]) k = some v) (hne : e.1 ≠ k) :
    drgn_member_map_search m k = some v := by
  induction m with
  | nil =>
    rw [List.nil_append, drgn_member_map_search, if_neg hne] at h
    exact Option.noConfusion h
  | cons p rest ih =>
    obtain ⟨pk, pv⟩ := p
    rw [List.cons_append, drgn_member_map_search] at h
    rw [drgn_member_map_search]
    by_cases hpk : pk = k
    · rw [if_pos hpk] at h
      rw [if_pos hpk]
      exact h
    · rw [if_neg hpk] at h
      rw [if_neg hpk]
      exact ih h

/-- A binding found after a first-wins insertion was either already
there, or is the inserted one (for a previously unbound key). -/
theorem drgn_member_map_insert_cases (m : drgn_member_map)
    (k' : drgn_member_key) (v' : drgn_member_value) (k : drgn_member_key)
    (v : drgn_member_value)
    (h : drgn_member_map_search (drgn_member_map_insert m k' v') k
      = some v) :
    drgn_member_map_search m k = some v ∨ (k = k' ∧ v = v') := by
  rw [drgn_member_map_insert] at h
  split at h
  · exact Or.inl h
  · by_cases hk : k = k'
    · subst hk
      next hnone =>
      have hnone' : drgn_member_map_search m k = none := by
        cases hs : drgn_member_map_search m k with
        | none => rfl
        | some w => rw [hs] at hnone; exact absurd rfl hnone
      rw [drgn_member_map_search_append_self m k v' hnone',
        Option.some.injEq] at h
      exact Or.inr ⟨rfl, h.symm⟩
    · exact Or.inl (drgn_member_map_search_append_ne m (k', v') k v h
        fun he => hk he.symm)

/-- Reachability through a member list extends to a longer list. -/
theorem drgn_member_list_reachable_cons (x : drgn_type_member)
    (ms : List drgn_type_member) (n : String) (lt : drgn_lazy_type)
    (off bfs : Nat) (h : drgn_member_list_reachable ms n lt off bfs) :
    drgn_member_list_reachable (x :: ms) n lt off bfs := by
  cases h with
  | direct hmem => exact .direct (List.mem_cons_of_mem x hmem)
  | nested hmem heval htype hrec =>
    exact .nested (List.mem_cons_of_mem x hmem) heval htype hrec

/-- The flattening recursion only ever adds bindings: every binding of
the accumulator survives into a successful result. -/
theorem cache_members_impl_mono (fuel outer : Nat)
    (ms : List drgn_type_member) (off : Nat) (acc : drgn_member_map) :
    ∀ m, drgn_program_cache_members_impl fuel outer ms off acc = .ok m →
      ∀ k v, drgn_member_map_search acc k = some v →
        drgn_member_map_search m k = some v := by
  induction fuel, outer, ms, off, acc using
    drgn_program_cache_members_impl.induct with
  | case1 outer ms off acc =>
    intro m h
    simp [drgn_program_cache_members_impl] at h
  | case2 fuel outer off acc =>
    intro m h k v hsearch
    simp only [drgn_program_cache_members_impl, Except.ok.injEq] at h
    subst h
    exact hsearch
  | case3 fuel outer mtype moff mbfs rest bit_offset acc name ih =>
    intro m h k v hsearch
    simp only [drgn_program_cache_members_impl] at h
    exact ih m h k v
      (drgn_member_map_insert_of_some acc (outer, name)
        ⟨mtype, bit_offset + moff, mbfs⟩ k v hsearch)
  | case4 fuel outer mtype moff mbfs rest bit_offset acc err heval =>
    intro m h
    simp [drgn_program_cache_members_impl, heval] at h
  | case5 fuel outer mtype moff mbfs rest bit_offset acc qt heval inner
      htype err herr ih =>
    intro m h
    simp [drgn_program_cache_members_impl, heval, htype, herr] at h
  | case6 fuel outer mtype moff mbfs rest bit_offset acc qt heval inner
      htype acc' hok ih1 ih2 =>
    intro m h k v hsearch
    simp only [drgn_program_cache_members_impl, heval, htype, hok] at h
    exact ih2 m h k v (ih1 acc' hok k v hsearch)
  | case7 fuel outer mtype moff mbfs rest bit_offset acc qt heval htype ih =>
    intro m h k v hsearch
    simp only [drgn_program_cache_members_impl, heval, htype] at h
    exact ih m h k v hsearch

/-- Soundness of the flattening recursion: every binding of the result
under the outer handle either was already in the accumulator or records
a member reachable from the processed list, at the base offset plus its
reachable offset. -/
theorem cache_members_impl_sound (fuel outer : Nat)
    (ms : List drgn_type_member) (off : Nat) (acc : drgn_member_map) :
    ∀ m, drgn_program_cache_members_impl fuel outer ms off acc = .ok m →
      ∀ (n : String) (v : drgn_member_value),
        drgn_member_map_search m (outer, n) = some v →
        drgn_member_map_search acc (outer, n) = some v
        ∨ ∃ lt relOff bfs, drgn_member_list_reachable ms n lt relOff bfs
            ∧ v = ⟨lt, off + relOff, bfs⟩ := by
  induction fuel, outer, ms, off, acc using
    drgn_program_cache_members_impl.induct with
  | case1 outer ms off acc =>
    intro m h
    simp [drgn_program_cache_members_impl] at h
  | case2 fuel outer off acc =>
    intro m h n v hsearch
    simp only [drgn_program_cache_members_impl, Except.ok.injEq] at h
    subst h
    exact Or.inl hsearch
  | case3 fuel outer mtype moff mbfs rest bit_offset acc name ih =>
    intro m h n v hsearch
    simp only [drgn_program_cache_members_impl] at h
    cases ih m h n v hsearch with
    | inl hacc =>
      cases drgn_member_map_insert_cases acc (outer, name)
          ⟨mtype, bit_offset + moff, mbfs⟩ (outer, n) v hacc with
      | inl hold => exact Or.inl hold
      | inr hnew =>
        obtain ⟨hkey, hval⟩ := hnew
        have hn : n = name := congrArg Prod.snd hkey
        subst hn
        exact Or.inr ⟨mtype, moff, mbfs,
          .direct (List.mem_cons_self _ _), hval⟩
    | inr hreach =>
      obtain ⟨lt, relOff, bfs, hr, hv⟩ := hreach
      exact Or.inr ⟨lt, relOff, bfs,
        drgn_member_list_reachable_cons _ rest n lt relOff bfs hr, hv⟩
  | case4 fuel outer mtype moff mbfs rest bit_offset acc err heval =>
    intro m h
    simp [drgn_program_cache_members_impl, heval] at h
  | case5 fuel outer mtype moff mbfs rest bit_offset acc qt heval inner
      htype err herr ih =>
    intro m h
    simp [drgn_program_cache_members_impl, heval, htype, herr] at h
  | case6 fuel outer mtype moff mbfs rest bit_offset acc qt heval inner
      htype acc' hok ih1 ih2 =>
    intro m h n v hsearch
    simp only [drgn_program_cache_members_impl, heval, htype, hok] at h
    cases ih2 m h n v hsearch with
    | inl hacc' =>
      cases ih1 acc' hok n v hacc' with
      | inl hacc => exact Or.inl hacc
      | inr hreach =>
        obtain ⟨lt, relOff, bfs, hr, hv⟩ := hreach
        refine Or.inr ⟨lt, moff + relOff, bfs,
          .nested (List.mem_cons_self _ _) heval htype hr, ?_⟩
        rw [hv]
        simp [Nat.add_assoc]
    | inr hreach =>
      obtain ⟨lt, relOff, bfs, hr, hv⟩ := hreach
      exact Or.inr ⟨lt, relOff, bfs,
        drgn_member_list_reachable_cons _ rest n lt relOff bfs hr, hv⟩
  | case7 fuel outer mtype moff mbfs rest bit_offset acc qt heval htype ih =>
    intro m h n v hsearch
    simp only [drgn_program_cache_members_impl, heval, htype] at h
    cases ih m h n v hsearch with
    | inl hacc => exact Or.inl hacc
    | inr hreach =>
      obtain ⟨lt, relOff, bfs, hr, hv⟩ := hreach
      exact Or.inr ⟨lt, relOff, bfs,
        drgn_member_list_reachable_cons _ rest n lt relOff bfs hr, hv⟩

/-- Completeness of the flattening recursion: after a successful run,
every name reachable from the processed member list is bound under the
outer handle. -/
theorem cache_members_impl_complete (fuel outer : Nat)
    (ms : List drgn_type_member) (off : Nat) (acc : drgn_member_map) :
    ∀ m, drgn_program_cache_members_impl fuel outer ms off acc = .ok m →
      ∀ (n : String) (lt : drgn_lazy_type) (relOff bfs : Nat),
        drgn_member_list_reachable ms n lt relOff bfs →
        (drgn_member_map_search m (outer, n)).isSome = true := by
  induction fuel, outer, ms, off, acc using
    drgn_program_cache_members_impl.induct with
  | case1 outer ms off acc =>
    intro m h
    simp [drgn_program_cache_members_impl] at h
  | case2 fuel outer off acc =>
    intro m h n lt relOff bfs hreach
    cases hreach with
    | direct hmem => exact absurd hmem (List.not_mem_nil _)
    | nested hmem heval htype hrec => exact absurd hmem (List.not_mem_nil _)
  | case3 fuel outer mtype moff mbfs rest bit_offset acc name ih =>
    intro m h n lt relOff bfs hreach
    simp only [drgn_program_cache_members_impl] at h
    cases hreach with
    | direct hmem =>
      cases List.mem_cons.mp hmem with
      | inl hhead =>
        have hn : n = name := by
          cases hhead
          rfl
        subst hn
        have hins := drgn_member_map_insert_isSome acc (outer, n)
          ⟨mtype, bit_offset + moff, mbfs⟩
        obtain ⟨v, hv⟩ := Option.isSome_iff_exists.mp hins
        rw [cache_members_impl_mono fuel outer rest bit_offset _ m h
          (outer, n) v hv]
        rfl
      | inr htail =>
        exact ih m h n lt relOff bfs (.direct htail)
    | nested hmem heval htype hrec =>
      cases List.mem_cons.mp hmem with
      | inl hhead => exact Option.noConfusion (congrArg
          drgn_type_member_name hhead)
      | inr htail =>
        exact ih m h n _ _ bfs (.nested htail heval htype hrec)
  | case4 fuel outer mtype moff mbfs rest bit_offset acc err heval =>
    intro m h
    simp [drgn_program_cache_members_impl, heval] at h
  | case5 fuel outer mtype moff mbfs rest bit_offset acc qt heval inner
      htype err herr ih =>
    intro m h
    simp [drgn_program_cache_members_impl, heval, htype, herr] at h
  | case6 fuel outer mtype moff mbfs rest bit_offset acc qt heval inner
      htype acc' hok ih1 ih2 =>
    intro m h n lt relOff bfs hreach
    simp only [drgn_program_cache_members_impl, heval, htype, hok] at h
    cases hreach with
    | direct hmem =>
      cases List.mem_cons.mp hmem with
      | inl hhead => exact Option.noConfusion (congrArg
          drgn_type_member_name hhead).symm
      | inr htail =>
        exact ih2 m h n lt relOff bfs (.direct htail)
    | nested hmem heval' htype' hrec =>
      cases List.mem_cons.mp hmem with
      | inl hhead =>
        have hmt : _ = mtype := congrArg drgn_type_member_type hhead
        subst hmt
        have hqt := Except.ok.inj (heval'.symm.trans heval)
        subst hqt
        have hinner := Option.some.inj (htype'.symm.trans htype)
        subst hinner
        have hsome := ih1 acc' hok n _ _ bfs hrec
        obtain ⟨v, hv⟩ := Option.isSome_iff_exists.mp hsome
        rw [cache_members_impl_mono fuel outer rest bit_offset acc' m h
          (outer, n) v hv]
        rfl
      | inr htail =>
        exact ih2 m h n _ _ bfs (.nested htail heval' htype' hrec)
  | case7 fuel outer mtype moff mbfs rest bit_offset acc qt heval htype ih =>
    intro m h n lt relOff bfs hreach
    simp only [drgn_program_cache_members_impl, heval, htype] at h
    cases hreach with
    | direct hmem =>
      cases List.mem_cons.mp hmem with
      | inl hhead => exact Option.noConfusion (congrArg
          drgn_type_member_name hhead).symm
      | inr htail =>
        exact ih m h n lt relOff bfs (.direct htail)
    | nested hmem heval' htype' hrec =>
      cases List.mem_cons.mp hmem with
      | inl hhead =>
        have hmt : _ = mtype := congrArg drgn_type_member_type hhead
        subst hmt
        have hqt := Except.ok.inj (heval'.symm.trans heval)
        subst hqt
        exact Option.noConfusion (htype'.symm.trans htype)
      | inr htail =>
        exact ih m h n _ _ bfs (.nested htail heval' htype' hrec)

/-- C7: `drgn_program_find_member` on a compound type (handle not yet
cached, no stale bindings, flattening traversal completes): the first
lookup populates the cache with all transitively flattened members of
the type and marks the type cached; a returned member value records a
member with that name reachable directly or through unnamed members,
with the nested offsets added; whenever such a member exists the lookup
succeeds; and when the lookup reports an error it is the recoverable
not-found error (distinct by construction from the fatal structural
errors), which happens exactly when no such member exists. -/
theorem find_member_flattens_and_caches (fuel : Nat)
    (cache : drgn_member_cache) (handle : Nat) (type : drgn_type)
    (name : String) (m : drgn_member_map)
    (hnotcached : handle ∉ cache.members_cached)
    (hnokeys : ∀ n : String,
      drgn_member_map_search cache.members (handle, n) = none)
    (hfull : drgn_program_cache_members_impl fuel handle type.members 0
      cache.members = .ok m) :
    (drgn_program_find_member fuel cache handle type name).2
      = ⟨m, handle :: cache.members_cached⟩
  ∧ (∀ v, (drgn_program_find_member fuel cache handle type name).1
        = .ok v →
      drgn_member_reachable type name v.type v.bit_offset
        v.bit_field_size)
  ∧ ((∃ lt off bfs, drgn_member_reachable type name lt off bfs) →
      ∃ v, (drgn_program_find_member fuel cache handle type name).1
        = .ok v)
  ∧ (∀ e, (drgn_program_find_member fuel cache handle type name).1
        = .error e →
      e = .not_found
      ∧ ¬∃ lt off bfs, drgn_member_reachable type name lt off bfs) := by
  have hstep : drgn_program_find_member fuel cache handle type name
      = match drgn_member_map_search m (handle, name) with
        | some value =>
          (.ok value, ⟨m, handle :: cache.members_cached⟩)
        | none =>
          (.error .not_found, ⟨m, handle :: cache.members_cached⟩) := by
    simp only [drgn_program_find_member]
    rw [hnokeys name]
    rw [if_neg hnotcached, hfull]
  cases hlast : drgn_member_map_search m (handle, name) with
  | some v =>
    rw [hlast] at hstep
    simp only at hstep
    have hsound := cache_members_impl_sound fuel handle type.members 0
      cache.members m hfull name v hlast
    cases hsound with
    | inl habs => rw [hnokeys name] at habs; exact Option.noConfusion habs
    | inr hreach =>
      obtain ⟨lt, relOff, bfs, hr, hv⟩ := hreach
      refine ⟨by rw [hstep], ?_, fun _ => ⟨v, by rw [hstep]⟩, ?_⟩
      · intro v' hv'
        rw [hstep] at hv'
        simp only [Except.ok.injEq] at hv'
        subst hv'
        subst hv
        simpa [Nat.zero_add] using hr
      · intro e he
        rw [hstep] at he
        exact Except.noConfusion he
  | none =>
    rw [hlast] at hstep
    simp only at hstep
    have hnone : ¬∃ lt off bfs, drgn_member_reachable type name lt off bfs := by
      rintro ⟨lt, off, bfs, hr⟩
      have := cache_members_impl_complete fuel handle type.members 0
        cache.members m hfull name lt off bfs hr
      rw [hlast] at this
      exact Bool.noConfusion this
    refine ⟨by rw [hstep], ?_, ?_, ?_⟩
    · intro v hv
      rw [hstep] at hv
      exact Except.noConfusion hv
    · intro hex
      exact absurd hex hnone
    · intro e he
      rw [hstep] at he
      simp only [Except.error.injEq] at he
      exact ⟨he.symm, hnone⟩

/-- Witness for C7, matching the spec's member-flattening scenario: a
struct S with direct member `x` and an unnamed nested struct at bit
offset 32 containing `y`.  Looking up `y` succeeds (the nested offset is
added), looking up the absent `z` reports the recoverable not-found
error, and the first lookup cached both flattened members of S. -/
theorem find_member_flattens_and_caches_witness :
    (drgn_program_find_member 5 ⟨[], []⟩ 0
        (.compound .DRGN_TYPE_STRUCT (some "S") 8 true
          [.mk (.mk (.type (some (.int "int" 4 true))) 0) (some "x") 0 0,
           .mk (.mk (.type (some (.compound .DRGN_TYPE_STRUCT none 4 true
             [.mk (.mk (.type (some (.float "float" 4))) 0) (some "y") 0 0]
             []))) 0) none 32 0] []) "y").2
      = ⟨[((0, "x"), ⟨.mk (.type (some (.int "int" 4 true))) 0, 0, 0⟩),
          ((0, "y"), ⟨.mk (.type (some (.float "float" 4))) 0, 32, 0⟩)],
         [0]⟩
  ∧ (∃ v, (drgn_program_find_member 5 ⟨[], []⟩ 0
        (.compound .DRGN_TYPE_STRUCT (some "S") 8 true
          [.mk (.mk (.type (some (.int "int" 4 true))) 0) (some "x") 0 0,
           .mk (.mk (.type (some (.compound .DRGN_TYPE_STRUCT none 4 true
             [.mk (.mk (.type (some (.float "float" 4))) 0) (some "y") 0 0]
             []))) 0) none 32 0] []) "y").1 = .ok v)
  ∧ (drgn_program_find_member 5 ⟨[], []⟩ 0
        (.compound .DRGN_TYPE_STRUCT (some "S") 8 true
          [.mk (.mk (.type (some (.int "int" 4 true))) 0) (some "x") 0 0,
           .mk (.mk (.type (some (.compound .DRGN_TYPE_STRUCT none 4 true
             [.mk (.mk (.type (some (.float "float" 4))) 0) (some "y") 0 0]
             []))) 0) none 32 0] []) "z").1 = .error .not_found
  ∧ ¬∃ lt off bfs, drgn_member_reachable
        (.compound .DRGN_TYPE_STRUCT (some "S") 8 true
          [.mk (.mk (.type (some (.int "int" 4 true))) 0) (some "x") 0 0,
           .mk (.mk (.type (some (.compound .DRGN_TYPE_STRUCT none 4 true
             [.mk (.mk (.type (some (.float "float" 4))) 0) (some "y") 0 0]
             []))) 0) none 32 0] []) "z" lt off bfs := by
  have hy := find_member_flattens_and_caches 5 ⟨[], []⟩ 0
    (.compound .DRGN_TYPE_STRUCT (some "S") 8 true
      [.mk (.mk (.type (some (.int "int" 4 true))) 0) (some "x") 0 0,
       .mk (.mk (.type (some (.compound .DRGN_TYPE_STRUCT none 4 true
         [.mk (.mk (.type (some (.float "float" 4))) 0) (some "y") 0 0]
         []))) 0) none 32 0] []) "y"
    [((0, "x"), ⟨.mk (.type (some (.int "int" 4 true))) 0, 0, 0⟩),
     ((0, "y"), ⟨.mk (.type (some (.float "float" 4))) 0, 32, 0⟩)]
    (by simp) (fun n => rfl) (by rfl)
  have hz := find_member_flattens_and_caches 5 ⟨[], []⟩ 0
    (.compound .DRGN_TYPE_STRUCT (some "S") 8 true
      [.mk (.mk (.type (some (.int "int" 4 true))) 0) (some "x") 0 0,
       .mk (.mk (.type (some (.compound .DRGN_TYPE_STRUCT none 4 true
         [.mk (.mk (.type (some (.float "float" 4))) 0) (some "y") 0 0]
         []))) 0) none 32 0] []) "z"
    [((0, "x"), ⟨.mk (.type (some (.int "int" 4 true))) 0, 0, 0⟩),
     ((0, "y"), ⟨.mk (.type (some (.float "float" 4))) 0, 32, 0⟩)]
    (by simp) (fun n => rfl) (by rfl)
  refine ⟨hy.1, hy.2.2.1 ⟨.mk (.type (some (.float "float" 4))) 0, 32 + 0, 0,
    ?_⟩, by rfl, (hz.2.2.2 .not_found (by rfl)).2⟩
  exact .nested (List.mem_cons_of_mem _ (List.mem_cons_self _ _)) rfl rfl
    (.direct (List.mem_cons_self _ _))

end Drgn
